import Mathlib

/-!
# water-meter.c : zone-hit detector and consumption accumulator

A shallow embedding of `regionHit`, `updateValues`, `sig_handler` and the start-value
part of `main` from `src/water-meter.c`.

Modelling conventions.

* `int` and `time_t` values are `Int`; `unsigned int` values are `Nat`.  The region
  table keeps every unsigned expression of `regionHit` below `2^32`, so no
  wrap-around occurs there.
* The `static` locals of `updateValues` and the globals `force_print` and
  `meter_start_value` are the fields of `MeterState`; everything the program
  prints or hands to the file system or the shell is appended to the field `log`.
* `time(0)` is the argument `new_time` of `updateValues`.
* The volume counters are `double`s in C.  Every value they take is a sum of
  multiples of `1/8`, which binary64 represents and adds exactly, so they are
  modelled by `ℚ`.  The section on binary64 arithmetic repeats the accumulation
  with IEEE rounding, and `run64_eq_run` proves that both agree on every run of
  fewer than `2^50` calls from the initial state.
* The hit threshold `(rw * rh) * 0.8` is a binary64 product with the inexact
  constant `0.8`; it is modelled bit-exactly by `mul_0_8`.
* The reports in `log` carry the exact sum `total + meter_start_value`; its
  formatting (`%8.2f`) and the success of `fopen` and `system` are not modelled.
* A frame is the function `x y ↦ *imgGetPixel(img, x, y)`.
* In `startup` the `%lf` conversion of `sscanf` and `fscanf` is a parameter, and the
  total-value file is its content, or `none` when it cannot be opened.
-/

namespace WaterMeter

/-! ## Constants and the region table -/

def NUM_REGIONS : Nat := 8
def IMAGE_WIDTH : Nat := 176
def IMAGE_HEIGHT : Nat := 144

/-- The struct `REGION`: origin and size of one hit area. -/
structure REGION where
  x : Nat
  y : Nat
  w : Nat
  h : Nat
deriving DecidableEq

/-- The global table `region[]`. -/
def region : List REGION :=
  [ ⟨19, 107, 10, 10⟩,
    ⟨11, 81, 10, 10⟩,
    ⟨20, 58, 10, 10⟩,
    ⟨44, 51, 10, 10⟩,
    ⟨67, 58, 10, 10⟩,
    ⟨73, 82, 10, 10⟩,
    ⟨67, 105, 10, 10⟩,
    ⟨43, 112, 10, 10⟩ ]

/-! ## Frames -/

/-- The three bytes `imgGetPixel` points at: index 0 blue, 1 green, 2 red. -/
structure Pixel where
  blue : Nat
  green : Nat
  red : Nat
deriving DecidableEq

/-- A frame, read through `imgGetPixel(img, x, y)`. -/
abbrev Image := Nat → Nat → Pixel

/-! ## regionHit -/

/-- The test `red < 128 || green < 128 || blue < 128`. -/
def isDark (p : Pixel) : Bool :=
  decide (p.red < 128) || decide (p.green < 128) || decide (p.blue < 128)

/-- The inner loop `for (y = ry; y < ry + rh; y++)` at a fixed column `x`,
continuing from the running value of `count_dark`. -/
def countColumn (img : Image) (x ry rh : Nat) (count_dark : Nat) : Nat :=
  (List.range' ry rh).foldl
    (fun c y => if isDark (img x y) then c + 1 else c) count_dark

/-- The double loop of `regionHit` over one region, starting from `count_dark = 0`. -/
def countDark (img : Image) (r : REGION) : Nat :=
  (List.range' r.x r.w).foldl (fun c x => countColumn img x r.y r.h c) 0

/-- The binary64 constant `0.8` is `DBL_0_8 / 2^52` (bits `0x3FE999999999999A`). -/
def DBL_0_8 : Nat := 3602879701896397

/-- The number of low bits binary64 cannot keep of `p`: the least `s` with
`p / 2^s < 2^53`, found by halving (`fuel` halvings are enough when `fuel ≥ p`). -/
def dropBits : Nat → Nat → Nat
  | 0, _ => 0
  | fuel + 1, p => if p < 2 ^ 53 then 0 else dropBits fuel (p / 2) + 1

/-- Rounding of a natural number to 53 significant bits, ties to even: the
rounding binary64 applies to an exact product. -/
def round53 (p : Nat) : Nat :=
  let s := dropBits p p
  let q := p / 2 ^ s
  let r := p % 2 ^ s
  let q1 := if 2 ^ s < 2 * r ∨ (2 * r = 2 ^ s ∧ q % 2 = 1) then q + 1 else q
  q1 * 2 ^ s

/-- The binary64 value of `n * 0.8` for an `unsigned int` `n`, in units of `2^-52`. -/
def mul_0_8 (n : Nat) : Nat := round53 (n * DBL_0_8)

/-- The test `count_dark > (rw * rh) * 0.8`, both sides in units of `2^-52`. -/
def overThreshold (count_dark rw rh : Nat) : Bool :=
  decide (mul_0_8 (rw * rh) < count_dark * 2 ^ 52)

/-- One iteration of the outer loop: is region `r` a hit in frame `img`? -/
def zoneHit (img : Image) (r : REGION) : Bool :=
  overThreshold (countDark img r) r.w r.h

/-- The table entry `region[i]`; the loop of `regionHit` only reads indices below
`NUM_REGIONS`, the length of the table. -/
def regionAt (i : Nat) : REGION := region.getD i ⟨0, 0, 0, 0⟩

/-- The outer loop `for (i = ...; i < NUM_REGIONS; i++)` with `n` iterations left,
returning at the first hit and `-1` when the loop runs out. -/
def regionHitLoop (img : Image) : Nat → Nat → Int
  | 0, _ => -1
  | n + 1, i =>
    if zoneHit img (regionAt i) then (i : Int)
    else regionHitLoop img n (i + 1)

/-- The function `regionHit`. -/
def regionHit (img : Image) : Int :=
  regionHitLoop img NUM_REGIONS 0

/-! ## updateValues -/

/-- What the program writes: lines on stdout, the total-value file, the rrdtool
command.  Times stand for the formatted `time_str`. -/
inductive Output where
  | hitLine (time : Int) (new_region_number : Int)
  | totalFile (shown : ℚ)
  | minuteLine (time : Int) (last_minute last_10minute last_drain shown : ℚ)
      (rate : Int)
  | rrdUpdate (shown : ℚ)
  | forcedLine (time : Int) (last_minute last_10minute last_drain shown : ℚ)
deriving DecidableEq

/-- The static locals of `updateValues`, the globals it reads, and the output so far. -/
structure MeterState where
  last_update_time : Int
  last_update_10time : Int
  last_region_number : Int
  frame_rate : Int
  total : ℚ
  last_drain : ℚ
  last_minute : ℚ
  last_10minute : ℚ
  force_print : Bool
  meter_start_value : ℚ
  log : List Output
deriving DecidableEq

/-- The state before the first call: the static initialisers of `updateValues`,
`force_print = false`, and the start value `main` has set. -/
def initialState (meter_start_value : ℚ) : MeterState :=
  { last_update_time := 0
    last_update_10time := 0
    last_region_number := -1
    frame_rate := 0
    total := 0
    last_drain := 0
    last_minute := 0
    last_10minute := 0
    force_print := false
    meter_start_value := meter_start_value
    log := [] }

/-- Lines 151-152: lazy initialisation of the two flush timestamps. -/
def initTimes (s : MeterState) (new_time : Int) : MeterState :=
  let s1 := if s.last_update_time = 0 then { s with last_update_time := new_time } else s
  if s1.last_update_10time = 0 then { s1 with last_update_10time := new_time } else s1

/-- The guard of line 154-155. -/
def regionChanged (new_region_number last_region_number : Int) : Bool :=
  decide (new_region_number ≠ -1) && decide (last_region_number ≠ -1) &&
    decide (new_region_number ≠ last_region_number)

/-- Lines 159-160: the value of `elapsed_regions`. -/
def elapsed_regions (new_region_number last_region_number : Int) : Int :=
  let e := new_region_number - last_region_number
  if e < 0 then e + NUM_REGIONS else e

/-- Lines 154-167: a change of region adds `elapsed_regions * 1.0 / NUM_REGIONS`
to the four counters. -/
def accumulate (s : MeterState) (new_region_number new_time : Int) : MeterState :=
  if regionChanged new_region_number s.last_region_number then
    let e := elapsed_regions new_region_number s.last_region_number
    { s with
      log := s.log ++ [Output.hitLine new_time new_region_number]
      total := s.total + (e : ℚ) * 1 / (NUM_REGIONS : ℚ)
      last_minute := s.last_minute + (e : ℚ) * 1 / (NUM_REGIONS : ℚ)
      last_10minute := s.last_10minute + (e : ℚ) * 1 / (NUM_REGIONS : ℚ)
      last_drain := s.last_drain + (e : ℚ) * 1 / (NUM_REGIONS : ℚ) }
  else s

/-- Lines 168-186: the minute flush. -/
def minuteFlush (s : MeterState) (new_time : Int) : MeterState :=
  if new_time ≥ s.last_update_time + 60 then
    { s with
      log := s.log ++
        [ Output.totalFile (s.total + s.meter_start_value),
          Output.minuteLine new_time s.last_minute s.last_10minute s.last_drain
            (s.total + s.meter_start_value) (Int.tdiv s.frame_rate 60),
          Output.rrdUpdate (s.total + s.meter_start_value) ]
      last_drain := if s.last_minute = 0 then 0 else s.last_drain
      last_minute := 0
      last_update_time := new_time
      frame_rate := 0 }
  else s

/-- Lines 187-192: the forced report. -/
def forcedPrint (s : MeterState) (new_time : Int) : MeterState :=
  if s.force_print then
    { s with
      log := s.log ++
        [ Output.forcedLine new_time s.last_minute s.last_10minute s.last_drain
            (s.total + s.meter_start_value) ]
      force_print := false }
  else s

/-- Lines 193-196: the ten-minute reset. -/
def tenMinuteFlush (s : MeterState) (new_time : Int) : MeterState :=
  if new_time ≥ s.last_update_10time + 10 * 60 then
    { s with last_10minute := 0, last_update_10time := new_time }
  else s

/-- Lines 197-198: remember the region, count the frame. -/
def finish (s : MeterState) (new_region_number : Int) : MeterState :=
  let s1 :=
    if new_region_number ≠ -1 then { s with last_region_number := new_region_number }
    else s
  { s1 with frame_rate := s1.frame_rate + 1 }

/-- The function `updateValues`, called with the observation `new_region_number`
at the moment `time(0) = new_time`. -/
def updateValues (s : MeterState) (new_region_number new_time : Int) : MeterState :=
  finish
    (tenMinuteFlush
      (forcedPrint
        (minuteFlush
          (accumulate (initTimes s new_time) new_region_number new_time)
          new_time)
        new_time)
      new_time)
    new_region_number

/-- The main loop's calls of `updateValues`: one `(observation, time)` pair per frame. -/
def run (s : MeterState) : List (Int × Int) → MeterState
  | [] => s
  | (n, t) :: rest => run (updateValues s n t) rest

/-! ## binary64 arithmetic

The counters are `double`s.  The definitions below repeat lines 154-167 with every
operation rounded as IEEE 754 binary64 rounds it (normal range, round to nearest,
ties to even); `run64_eq_run` shows that the rounding never takes effect on a run from
the initial state, which is why the rest of the development computes in `ℚ`. -/

/-- Rounding of a rational to the nearest integer, ties to the even one. -/
def roundHalfEven (q : ℚ) : Int :=
  if q - (Int.floor q : ℚ) < 1 / 2 then Int.floor q
  else if 1 / 2 < q - (Int.floor q : ℚ) then Int.floor q + 1
  else if Int.floor q % 2 = 0 then Int.floor q
  else Int.floor q + 1

/-- The binary64 rounding of a rational `x` in the normal range: with
`2^e ≤ |x| < 2^(e+1)`, the nearest multiple of `2^(e-52)`. -/
def roundBinary64 (x : ℚ) : ℚ :=
  if x = 0 then 0
  else
    (roundHalfEven (x / (2 : ℚ) ^ (Int.log 2 |x| - 52)) : ℚ) *
      (2 : ℚ) ^ (Int.log 2 |x| - 52)

/-- The binary64 value of `elapsed_regions * 1.0 / NUM_REGIONS`. -/
def delta64 (elapsed_regions : Int) : ℚ :=
  roundBinary64 (roundBinary64 ((elapsed_regions : ℚ) * 1) / (NUM_REGIONS : ℚ))

/-- Lines 154-167 in binary64 arithmetic. -/
def accumulate64 (s : MeterState) (new_region_number new_time : Int) : MeterState :=
  if regionChanged new_region_number s.last_region_number then
    let e := elapsed_regions new_region_number s.last_region_number
    { s with
      log := s.log ++ [Output.hitLine new_time new_region_number]
      total := roundBinary64 (s.total + delta64 e)
      last_minute := roundBinary64 (s.last_minute + delta64 e)
      last_10minute := roundBinary64 (s.last_10minute + delta64 e)
      last_drain := roundBinary64 (s.last_drain + delta64 e) }
  else s

/-- The function `updateValues` with its arithmetic in binary64. -/
def updateValues64 (s : MeterState) (new_region_number new_time : Int) : MeterState :=
  finish
    (tenMinuteFlush
      (forcedPrint
        (minuteFlush
          (accumulate64 (initTimes s new_time) new_region_number new_time)
          new_time)
        new_time)
      new_time)
    new_region_number

/-- The main loop's calls of `updateValues`, computed in binary64. -/
def run64 (s : MeterState) : List (Int × Int) → MeterState
  | [] => s
  | (n, t) :: rest => run64 (updateValues64 s n t) rest

/-- The four counters are multiples of `1/8` with numerators up to `bound`. -/
def countersExact (bound : Nat) (s : MeterState) : Prop :=
  (∃ k : Nat, k ≤ bound ∧ s.total = (k : ℚ) / 8) ∧
    (∃ k : Nat, k ≤ bound ∧ s.last_minute = (k : ℚ) / 8) ∧
    (∃ k : Nat, k ≤ bound ∧ s.last_10minute = (k : ℚ) / 8) ∧
    (∃ k : Nat, k ≤ bound ∧ s.last_drain = (k : ℚ) / 8)

/-! ## Vocabulary of the specification -/

/-- An observation: "none" (`-1`) or a zone index in `[0, NUM_REGIONS)`. -/
abbrev isObservation (n : Int) : Prop := n = -1 ∨ (0 ≤ n ∧ n < 8)

/-- A zone index in `[0, NUM_REGIONS)`. -/
abbrev isZone (n : Int) : Prop := 0 ≤ n ∧ n < 8

/-- The specification's `elapsed(p, q) = (q - p + N) mod N`. -/
def elapsed (p q : Int) : Int := (q - p + 8) % 8

/-- The sum of `elapsed(p, q)` over the consecutive pairs `p, q` of a list with `p ≠ q`. -/
def pairSum : List Int → Int
  | p :: q :: rest => (if p ≠ q then elapsed p q else 0) + pairSum (q :: rest)
  | _ => 0

/-- The specification's total for a list of observations: one eighth of the pair sum
of its non-none entries. -/
def specTotal (obs : List Int) : ℚ :=
  (1 / 8 : ℚ) * (pairSum (obs.filter (fun n => decide (n ≠ -1))) : ℚ)

/-- The volume one call adds to each counter, given the observation and the
remembered region: `elapsed_regions * 1.0 / NUM_REGIONS` when the guard of
line 154 holds, nothing otherwise. -/
def delta (new_region_number last_region_number : Int) : ℚ :=
  if regionChanged new_region_number last_region_number then
    (elapsed_regions new_region_number last_region_number : ℚ) * 1 / (NUM_REGIONS : ℚ)
  else 0

/-- The condition of line 168 as the call at time `t` evaluates it, that is after
the lazy initialisation of line 151. -/
def minuteDue (s : MeterState) (t : Int) : Prop :=
  t ≥ (if s.last_update_time = 0 then t else s.last_update_time) + 60

instance (s : MeterState) (t : Int) : Decidable (minuteDue s t) := by
  unfold minuteDue; infer_instance

/-- The condition of line 193 as the call at time `t` evaluates it, that is after
the lazy initialisation of line 152. -/
def tenMinuteDue (s : MeterState) (t : Int) : Prop :=
  t ≥ (if s.last_update_10time = 0 then t else s.last_update_10time) + 10 * 60

instance (s : MeterState) (t : Int) : Decidable (tenMinuteDue s t) := by
  unfold tenMinuteDue; infer_instance

/-- The increments of `total`, call by call, along a run. -/
def totalDeltas (s : MeterState) : List (Int × Int) → List ℚ
  | [] => []
  | (n, t) :: rest =>
    ((updateValues s n t).total - s.total) :: totalDeltas (updateValues s n t) rest

/-- What a step from `s` to `s1` has written. -/
def emitted (s s1 : MeterState) : List Output := s1.log.drop s.log.length

/-- Recognises the report line of the minute flush (line 172). -/
def isMinuteLine : Output → Bool
  | Output.minuteLine _ _ _ _ _ _ => true
  | _ => false

/-- Recognises the line printed on a change of region (line 156). -/
def isHitLine : Output → Bool
  | Output.hitLine _ _ => true
  | _ => false

/-- The full cycle `s, s+1, ..., s+7, s` (indices mod 8), the `k`-th observation
made at time `time k`. -/
def cycleCalls (s : Int) (time : Nat → Int) : List (Int × Int) :=
  (List.range 9).map (fun (k : Nat) => ((s + (k : Int)) % 8, time k))

/-- The dark pixels of a region in a frame. -/
def darkPixels (img : Image) (r : REGION) : Finset (Nat × Nat) :=
  (Finset.Ico r.x (r.x + r.w) ×ˢ Finset.Ico r.y (r.y + r.h)).filter
    (fun p => isDark (img p.1 p.2) = true)

/-- A test frame: columns left of `27` hold pixels whose red channel alone is below
128, the pixel `(27, 107)` is black when `extra` is set, and the rest is white. -/
def stripeFrame (extra : Bool) : Image := fun x y =>
  if x < 27 then ⟨255, 255, 127⟩
  else if extra && x == 27 && y == 107 then ⟨0, 0, 0⟩
  else ⟨255, 255, 255⟩

/-- The signal number `SIGINT`. -/
def SIGINT : Int := 2

/-- The function `sig_handler` (lines 212-216): `SIGINT` sets `force_print`. -/
def sig_handler (s : MeterState) (signo : Int) : MeterState :=
  if signo = SIGINT then { s with force_print := true } else s

/-! ## The start value in main -/

/-- Lines 240-248: the scan of `argv[0..argc)`, from the pair `(display_image,
meter_start_value)`.  The conversion `sscanf(.., "%lf", ..)` is the parameter `scan`;
when it converts nothing the variable keeps its value.  After a final `-start_value`
the program hands `argv[argc]`, a null pointer, to `sscanf`: the result is `none`. -/
def scanArgs (scan : String → Option ℚ) : List String → Bool × ℚ → Option (Bool × ℚ)
  | [], acc => some acc
  | a :: rest, acc =>
    if a = "-start_value" then
      match rest with
      | [] => none
      | v :: rest1 =>
        scanArgs scan rest1 (if a = "-di" then true else acc.1, (scan v).getD acc.2)
    else scanArgs scan rest (if a = "-di" then true else acc.1, acc.2)

/-- What `main` has set up when it reaches line 258. -/
structure Startup where
  display_image : Bool
  meter_start_value : ℚ
  file_opened : Bool
deriving DecidableEq

/-- Lines 240-256 of `main`.  The argument `file` is the content of the total-value
file, `none` when `fopen` fails; `file_opened` records whether `fopen` was called. -/
def startup (scan : String → Option ℚ) (argv : List String) (file : Option String) :
    Option Startup :=
  match scanArgs scan argv (false, 0) with
  | none => none
  | some (display_image, v) =>
    if v = 0 then
      match file with
      | some content => some ⟨display_image, (scan content).getD v, true⟩
      | none => some ⟨display_image, v, true⟩
    else some ⟨display_image, v, false⟩

/-- A conversion table for three sample texts. -/
def sampleScan (text : String) : Option ℚ :=
  if text = "0" then some 0
  else if text = "527.23" then some (52723 / 100)
  else if text = "527234" then some 527234
  else none

/-! ## Vocabulary of the invariants -/

/-- The ordering of the counters: `0 ≤ last_minute ≤ last_drain ≤ total` and
`0 ≤ last_10minute ≤ total`. -/
def countersOrdered (s : MeterState) : Prop :=
  0 ≤ s.last_minute ∧ s.last_minute ≤ s.last_drain ∧ s.last_drain ≤ s.total ∧
    0 ≤ s.last_10minute ∧ s.last_10minute ≤ s.total

/-- The call of `updateValues` with observation `n` at time `t` performs a minute
flush that finds `last_minute` at zero (and so clears `last_drain`). -/
def idleFlush (s : MeterState) (n t : Int) : Prop :=
  minuteDue s t ∧ s.last_minute + delta n s.last_region_number = 0

/-- No call of the run performs an idle-minute flush. -/
def noIdleFlush (s : MeterState) : List (Int × Int) → Prop
  | [] => True
  | (n, t) :: rest => ¬ idleFlush s n t ∧ noIdleFlush (updateValues s n t) rest

/-- The first non-none observation of a list, if there is one. -/
def firstZone (obs : List Int) : Option Int :=
  (obs.filter (fun n => decide (n ≠ -1))).head?

/-- The pixel coordinates `regionHit` passes to `imgGetPixel` for region `r`
(lines 77-80). -/
def regionHitCoords (r : REGION) : List (Nat × Nat) :=
  (List.range' r.x r.w).flatMap (fun x => (List.range' r.y r.h).map (fun y => (x, y)))

/-- The pixel coordinates `drawRegion` passes to `imgSetPixel` for region `r`
(lines 113-120): the rows `ry` and `ry + rh`, the columns `rx` and `rx + rw`. -/
def drawRegionCoords (r : REGION) : List (Nat × Nat) :=
  (List.range' r.x r.w).map (fun x => (x, r.y)) ++
    (List.range' r.x r.w).map (fun x => (x, r.y + r.h)) ++
    (List.range' r.y r.h).map (fun y => (r.x, y)) ++
    (List.range' r.y r.h).map (fun y => (r.x + r.w, y))

/-- A coordinate of the `IMAGE_WIDTH` by `IMAGE_HEIGHT` frame. -/
def inFrame (p : Nat × Nat) : Prop := p.1 < IMAGE_WIDTH ∧ p.2 < IMAGE_HEIGHT

instance (p : Nat × Nat) : Decidable (inFrame p) := by
  unfold inFrame; infer_instance

/-- Two regions share no pixel, far edges included. -/
def apart (a b : REGION) : Prop :=
  a.x + a.w < b.x ∨ b.x + b.w < a.x ∨ a.y + a.h < b.y ∨ b.y + b.h < a.y

instance (a b : REGION) : Decidable (apart a b) := by
  unfold apart; infer_instance

/-! ## Stage equations -/

theorem initTimes_eq (s : MeterState) (t : Int) :
    initTimes s t =
      { s with
        last_update_time := if s.last_update_time = 0 then t else s.last_update_time
        last_update_10time :=
          if s.last_update_10time = 0 then t else s.last_update_10time } := by
  unfold initTimes
  split_ifs <;> simp_all

theorem accumulate_eq (s : MeterState) (n t : Int) :
    accumulate s n t =
      { s with
        log :=
          if regionChanged n s.last_region_number then s.log ++ [Output.hitLine t n]
          else s.log
        total := s.total + delta n s.last_region_number
        last_minute := s.last_minute + delta n s.last_region_number
        last_10minute := s.last_10minute + delta n s.last_region_number
        last_drain := s.last_drain + delta n s.last_region_number } := by
  unfold accumulate delta
  split_ifs <;> simp

theorem minuteFlush_eq (s : MeterState) (t : Int) :
    minuteFlush s t =
      { s with
        log :=
          if t ≥ s.last_update_time + 60 then s.log ++
            [ Output.totalFile (s.total + s.meter_start_value),
              Output.minuteLine t s.last_minute s.last_10minute s.last_drain
                (s.total + s.meter_start_value) (Int.tdiv s.frame_rate 60),
              Output.rrdUpdate (s.total + s.meter_start_value) ]
          else s.log
        last_drain :=
          if t ≥ s.last_update_time + 60 ∧ s.last_minute = 0 then 0 else s.last_drain
        last_minute := if t ≥ s.last_update_time + 60 then 0 else s.last_minute
        last_update_time := if t ≥ s.last_update_time + 60 then t else s.last_update_time
        frame_rate := if t ≥ s.last_update_time + 60 then 0 else s.frame_rate } := by
  unfold minuteFlush
  split_ifs <;> simp_all

theorem forcedPrint_eq (s : MeterState) (t : Int) :
    forcedPrint s t =
      { s with
        log :=
          if s.force_print then s.log ++
            [ Output.forcedLine t s.last_minute s.last_10minute s.last_drain
                (s.total + s.meter_start_value) ]
          else s.log
        force_print := false } := by
  unfold forcedPrint
  cases s
  split_ifs <;> simp_all

theorem tenMinuteFlush_eq (s : MeterState) (t : Int) :
    tenMinuteFlush s t =
      { s with
        last_10minute := if t ≥ s.last_update_10time + 10 * 60 then 0 else s.last_10minute
        last_update_10time :=
          if t ≥ s.last_update_10time + 10 * 60 then t else s.last_update_10time } := by
  unfold tenMinuteFlush
  split_ifs <;> simp_all

theorem finish_eq (s : MeterState) (n : Int) :
    finish s n =
      { s with
        last_region_number := if n ≠ -1 then n else s.last_region_number
        frame_rate := s.frame_rate + 1 } := by
  unfold finish
  split_ifs <;> simp_all

/-! ## The fields of the state after one call -/

theorem updateValues_total (s : MeterState) (n t : Int) :
    (updateValues s n t).total = s.total + delta n s.last_region_number := by
  simp only [updateValues, finish_eq, tenMinuteFlush_eq, forcedPrint_eq, minuteFlush_eq,
    accumulate_eq, initTimes_eq]

theorem updateValues_last_region_number (s : MeterState) (n t : Int) :
    (updateValues s n t).last_region_number =
      if n ≠ -1 then n else s.last_region_number := by
  simp only [updateValues, finish_eq, tenMinuteFlush_eq, forcedPrint_eq, minuteFlush_eq,
    accumulate_eq, initTimes_eq]

theorem updateValues_last_minute (s : MeterState) (n t : Int) :
    (updateValues s n t).last_minute =
      if minuteDue s t then 0 else s.last_minute + delta n s.last_region_number := by
  simp only [updateValues, finish_eq, tenMinuteFlush_eq, forcedPrint_eq, minuteFlush_eq,
    accumulate_eq, initTimes_eq, minuteDue]

theorem updateValues_last_10minute (s : MeterState) (n t : Int) :
    (updateValues s n t).last_10minute =
      if tenMinuteDue s t then 0 else s.last_10minute + delta n s.last_region_number := by
  simp only [updateValues, finish_eq, tenMinuteFlush_eq, forcedPrint_eq, minuteFlush_eq,
    accumulate_eq, initTimes_eq, tenMinuteDue]

theorem updateValues_last_drain (s : MeterState) (n t : Int) :
    (updateValues s n t).last_drain =
      if minuteDue s t ∧ s.last_minute + delta n s.last_region_number = 0 then 0
      else s.last_drain + delta n s.last_region_number := by
  simp only [updateValues, finish_eq, tenMinuteFlush_eq, forcedPrint_eq, minuteFlush_eq,
    accumulate_eq, initTimes_eq, minuteDue]

theorem updateValues_last_update_time (s : MeterState) (n t : Int) :
    (updateValues s n t).last_update_time =
      if minuteDue s t then t
      else if s.last_update_time = 0 then t else s.last_update_time := by
  simp only [updateValues, finish_eq, tenMinuteFlush_eq, forcedPrint_eq, minuteFlush_eq,
    accumulate_eq, initTimes_eq, minuteDue]

theorem updateValues_last_update_10time (s : MeterState) (n t : Int) :
    (updateValues s n t).last_update_10time =
      if tenMinuteDue s t then t
      else if s.last_update_10time = 0 then t else s.last_update_10time := by
  simp only [updateValues, finish_eq, tenMinuteFlush_eq, forcedPrint_eq, minuteFlush_eq,
    accumulate_eq, initTimes_eq, tenMinuteDue]

theorem updateValues_frame_rate (s : MeterState) (n t : Int) :
    (updateValues s n t).frame_rate =
      (if minuteDue s t then 0 else s.frame_rate) + 1 := by
  simp only [updateValues, finish_eq, tenMinuteFlush_eq, forcedPrint_eq, minuteFlush_eq,
    accumulate_eq, initTimes_eq, minuteDue]

theorem updateValues_force_print (s : MeterState) (n t : Int) :
    (updateValues s n t).force_print = false := by
  simp only [updateValues, finish_eq, tenMinuteFlush_eq, forcedPrint_eq, minuteFlush_eq,
    accumulate_eq, initTimes_eq]

theorem updateValues_meter_start_value (s : MeterState) (n t : Int) :
    (updateValues s n t).meter_start_value = s.meter_start_value := by
  simp only [updateValues, finish_eq, tenMinuteFlush_eq, forcedPrint_eq, minuteFlush_eq,
    accumulate_eq, initTimes_eq]

theorem updateValues_log (s : MeterState) (n t : Int) :
    (updateValues s n t).log =
      s.log ++
        ((if regionChanged n s.last_region_number then [Output.hitLine t n] else []) ++
         (if minuteDue s t then
            [ Output.totalFile (s.total + delta n s.last_region_number + s.meter_start_value),
              Output.minuteLine t (s.last_minute + delta n s.last_region_number)
                (s.last_10minute + delta n s.last_region_number)
                (s.last_drain + delta n s.last_region_number)
                (s.total + delta n s.last_region_number + s.meter_start_value)
                (Int.tdiv s.frame_rate 60),
              Output.rrdUpdate (s.total + delta n s.last_region_number + s.meter_start_value) ]
          else []) ++
         (if s.force_print then
            [ Output.forcedLine t
                (if minuteDue s t then 0 else s.last_minute + delta n s.last_region_number)
                (s.last_10minute + delta n s.last_region_number)
                (if minuteDue s t ∧ s.last_minute + delta n s.last_region_number = 0 then 0
                  else s.last_drain + delta n s.last_region_number)
                (s.total + delta n s.last_region_number + s.meter_start_value) ]
          else [])) := by
  simp only [updateValues, finish_eq, tenMinuteFlush_eq, forcedPrint_eq, minuteFlush_eq,
    accumulate_eq, initTimes_eq, minuteDue]
  split_ifs <;> simp

/-! ## Deltas and runs -/

theorem elapsed_regions_eq (a b : Int) (ha : isZone a) (hb : isZone b) :
    elapsed_regions b a = elapsed a b := by
  unfold elapsed_regions elapsed NUM_REGIONS
  obtain ⟨h1, h2⟩ := ha
  obtain ⟨h3, h4⟩ := hb
  simp only [Nat.cast_ofNat]
  split_ifs <;> omega

/-- The elapsed count of a change between two observations is between 1 and 7. -/
theorem elapsed_regions_range (n a : Int) (hn : isObservation n) (ha : isObservation a)
    (hg : regionChanged n a = true) :
    ∃ j : Nat, 1 ≤ j ∧ j ≤ 7 ∧ elapsed_regions n a = (j : Int) := by
  simp only [regionChanged, Bool.and_eq_true, decide_eq_true_eq] at hg
  obtain ⟨⟨h1, h2⟩, h3⟩ := hg
  have hzn : isZone n := hn.resolve_left h1
  have hza : isZone a := ha.resolve_left h2
  obtain ⟨h4, h5⟩ := hzn
  obtain ⟨h6, h7⟩ := hza
  refine ⟨(elapsed_regions n a).toNat, ?_, ?_, ?_⟩ <;>
    · unfold elapsed_regions NUM_REGIONS
      simp only [Nat.cast_ofNat]
      split_ifs <;> omega

theorem delta_none (a : Int) : delta (-1) a = 0 := by
  simp [delta, regionChanged]

theorem delta_unset (n : Int) : delta n (-1) = 0 := by
  simp [delta, regionChanged]

theorem delta_same (a : Int) : delta a a = 0 := by
  simp [delta, regionChanged]

theorem delta_zone (a b : Int) (ha : isZone a) (hb : isZone b) (hne : a ≠ b) :
    delta b a = (elapsed a b : ℚ) / 8 := by
  have h1 : a ≠ -1 := by obtain ⟨h, _⟩ := ha; omega
  have h2 : b ≠ -1 := by obtain ⟨h, _⟩ := hb; omega
  have h3 : b ≠ a := fun h => hne h.symm
  simp [delta, regionChanged, h1, h2, h3, elapsed_regions_eq a b ha hb, NUM_REGIONS]

/-- A run over a concatenation is the run over the second part from where the first
part ends. -/
theorem run_append (l1 l2 : List (Int × Int)) :
    ∀ s : MeterState, run s (l1 ++ l2) = run (run s l1) l2 := by
  induction l1 with
  | nil => intro s; rfl
  | cons c rest ih =>
    intro s
    obtain ⟨n, t⟩ := c
    rw [List.cons_append, run, run, ih]

/-- The total after a run from any state whose remembered region is an observation. -/
theorem run_total (calls : List (Int × Int)) :
    ∀ s : MeterState, isObservation s.last_region_number →
      (∀ c ∈ calls, isObservation c.1) →
      (run s calls).total =
        s.total + specTotal (s.last_region_number :: calls.map Prod.fst) := by
  induction calls with
  | nil =>
    intro s _ _
    by_cases h : s.last_region_number = -1 <;> simp [run, specTotal, pairSum, h]
  | cons c rest ih =>
    intro s hs hall
    obtain ⟨n, t⟩ := c
    have hn : isObservation n := hall (n, t) (List.mem_cons_self _ _)
    have hrest : ∀ c ∈ rest, isObservation c.1 :=
      fun c hc => hall c (List.mem_cons_of_mem _ hc)
    have hnext : isObservation (updateValues s n t).last_region_number := by
      rw [updateValues_last_region_number]
      split_ifs
      · exact hn
      · exact hs
    rw [run, ih _ hnext hrest, updateValues_total, updateValues_last_region_number]
    by_cases h1 : n = -1
    · subst h1
      simp [specTotal, delta_none, List.filter_cons]
    · by_cases h2 : s.last_region_number = -1
      · simp [specTotal, h1, h2, delta_unset]
      · by_cases h3 : s.last_region_number = n
        · simp [specTotal, h1, h3, delta_same, pairSum]
        · have hz1 : isZone s.last_region_number := by
            rcases hs with h | h
            · exact absurd h h2
            · exact h
          have hz2 : isZone n := by
            rcases hn with h | h
            · exact absurd h h1
            · exact h
          simp [specTotal, h1, h2, h3, pairSum, delta_zone _ _ hz1 hz2 h3]
          ring

/-- The increments of `total` along a run add up to what the run adds to `total`. -/
theorem totalDeltas_sum (calls : List (Int × Int)) :
    ∀ s : MeterState, (totalDeltas s calls).sum = (run s calls).total - s.total := by
  induction calls with
  | nil => intro s; simp [totalDeltas, run]
  | cons c rest ih =>
    intro s
    obtain ⟨n, t⟩ := c
    simp only [totalDeltas, run, List.sum_cons, ih]
    ring

/-- While the region is unset and the counters are zero, none observations keep them
so. -/
theorem run_none_keeps_zero (times : List Int) :
    ∀ s : MeterState,
      s.last_region_number = -1 → s.total = 0 → s.last_minute = 0 →
      s.last_10minute = 0 → s.last_drain = 0 →
      (run s (times.map (fun t => ((-1 : Int), t)))).last_region_number = -1 ∧
      (run s (times.map (fun t => ((-1 : Int), t)))).total = 0 ∧
      (run s (times.map (fun t => ((-1 : Int), t)))).last_minute = 0 ∧
      (run s (times.map (fun t => ((-1 : Int), t)))).last_10minute = 0 ∧
      (run s (times.map (fun t => ((-1 : Int), t)))).last_drain = 0 := by
  induction times with
  | nil => intro s h1 h2 h3 h4 h5; exact ⟨h1, h2, h3, h4, h5⟩
  | cons t rest ih =>
    intro s h1 h2 h3 h4 h5
    simp only [List.map_cons, run]
    apply ih
    · rw [updateValues_last_region_number, h1]; simp
    · rw [updateValues_total, h2, delta_none, add_zero]
    · rw [updateValues_last_minute, h3, delta_none, add_zero, ite_self]
    · rw [updateValues_last_10minute, h4, delta_none, add_zero, ite_self]
    · rw [updateValues_last_drain, h5, delta_none, add_zero, add_zero, ite_self]

/-! ## The loops of regionHit -/

/-- The inner loop adds to `count_dark` the number of dark pixels of the column. -/
theorem countColumn_eq (img : Image) (x ry : Nat) (c : Nat) (rh : Nat) :
    countColumn img x ry rh c =
      c + ((Finset.Ico ry (ry + rh)).filter (fun y => isDark (img x y) = true)).card := by
  induction rh with
  | zero => simp [countColumn]
  | succ k ih =>
    unfold countColumn at ih ⊢
    rw [List.range'_1_concat, List.foldl_append, ih, ← Nat.add_assoc,
      Nat.Ico_succ_right_eq_insert_Ico (Nat.le_add_right ry k), Finset.filter_insert]
    simp only [List.foldl_cons, List.foldl_nil, Nat.mul_one]
    split_ifs with h
    · rw [Finset.card_insert_of_not_mem (by simp)]
      omega
    · rfl

/-- The double loop counts the dark pixels of the region. -/
theorem countDark_eq_card (img : Image) (r : REGION) :
    countDark img r = (darkPixels img r).card := by
  have hsum : ∀ w : Nat,
      (List.range' r.x w).foldl (fun c x => countColumn img x r.y r.h c) 0 =
        ∑ x in Finset.Ico r.x (r.x + w),
          ((Finset.Ico r.y (r.y + r.h)).filter (fun y => isDark (img x y) = true)).card := by
    intro w
    induction w with
    | zero => simp
    | succ k ih =>
      rw [List.range'_1_concat, List.foldl_append, ih, ← Nat.add_assoc,
        Finset.sum_Ico_succ_top (Nat.le_add_right r.x k)]
      simp only [List.foldl_cons, List.foldl_nil, Nat.mul_one, countColumn_eq]
  unfold countDark darkPixels
  rw [hsum, Finset.card_filter, Finset.sum_product]
  refine Finset.sum_congr rfl (fun x _ => ?_)
  rw [Finset.card_filter]

/-- The binary64 product `100 * 0.8` is exactly `80`. -/
theorem mul_0_8_hundred : mul_0_8 100 = 80 * 2 ^ 52 := by decide

/-- Every region of the table is ten by ten. -/
theorem region_size (r : REGION) (hr : r ∈ region) : r.w = 10 ∧ r.h = 10 := by
  simp only [region, List.mem_cons, List.mem_singleton, List.not_mem_nil, or_false] at hr
  rcases hr with h | h | h | h | h | h | h | h <;> subst h <;> exact ⟨rfl, rfl⟩

/-- For a region of the table the threshold test is `80 < count_dark`. -/
theorem zoneHit_iff (img : Image) (r : REGION) (hr : r ∈ region) :
    zoneHit img r = true ↔ 80 < countDark img r := by
  obtain ⟨hw, hh⟩ := region_size r hr
  unfold zoneHit overThreshold
  rw [hw, hh, show (10 : Nat) * 10 = 100 from rfl, mul_0_8_hundred, decide_eq_true_eq]
  norm_num
  omega

/-- The loop of `regionHit`, started at index `i` with `n` iterations left, returns
the first index in `[i, i + n)` whose zone is a hit, and `-1` when there is none. -/
theorem regionHitLoop_spec (img : Image) (n : Nat) :
    ∀ i : Nat,
      (∀ k : Nat, regionHitLoop img n i = (k : Int) ↔
        (i ≤ k ∧ k < i + n ∧ zoneHit img (regionAt k) = true ∧
          ∀ j, i ≤ j → j < k → zoneHit img (regionAt j) = false)) ∧
      (regionHitLoop img n i = -1 ↔
        ∀ j, i ≤ j → j < i + n → zoneHit img (regionAt j) = false) := by
  induction n with
  | zero =>
    intro i
    refine ⟨fun k => ?_, ?_⟩
    · simp only [regionHitLoop]
      constructor
      · intro h; omega
      · rintro ⟨h1, h2, _⟩; omega
    · simp only [regionHitLoop, true_iff]
      intro j h1 h2; omega
  | succ m ih =>
    intro i
    obtain ⟨ih1, ih2⟩ := ih (i + 1)
    by_cases hi : zoneHit img (regionAt i) = true
    · refine ⟨fun k => ?_, ?_⟩
      · simp only [regionHitLoop, hi, if_true]
        constructor
        · intro h
          have hk : i = k := by exact_mod_cast h
          subst hk
          exact ⟨le_refl _, by omega, hi, fun j h1 h2 => by omega⟩
        · rintro ⟨h1, _, _, h4⟩
          rcases Nat.eq_or_lt_of_le h1 with h | h
          · rw [h]
          · have := h4 i (le_refl _) h
            rw [hi] at this
            exact absurd this (by decide)
      · simp only [regionHitLoop, hi, if_true]
        constructor
        · intro h; omega
        · intro h
          have := h i (le_refl _) (by omega)
          rw [hi] at this
          exact absurd this (by decide)
    · have hi0 : zoneHit img (regionAt i) = false := by simpa using hi
      refine ⟨fun k => ?_, ?_⟩
      · simp only [regionHitLoop, hi0, Bool.false_eq_true, if_false]
        rw [ih1 k]
        constructor
        · rintro ⟨h1, h2, h3, h4⟩
          refine ⟨by omega, by omega, h3, fun j hj1 hj2 => ?_⟩
          rcases Nat.eq_or_lt_of_le hj1 with h | h
          · rw [← h]; exact hi0
          · exact h4 j h hj2
        · rintro ⟨h1, h2, h3, h4⟩
          have hne : i ≠ k := by
            intro h
            rw [← h, hi0] at h3
            exact absurd h3 (by decide)
          exact ⟨by omega, by omega, h3, fun j hj1 hj2 => h4 j (by omega) hj2⟩
      · simp only [regionHitLoop, hi0, Bool.false_eq_true, if_false]
        rw [ih2]
        constructor
        · intro h j hj1 hj2
          rcases Nat.eq_or_lt_of_le hj1 with h1 | h1
          · rw [← h1]; exact hi0
          · exact h j h1 (by omega)
        · intro h j hj1 hj2
          exact h j (by omega) (by omega)

/-! ## binary64 rounding never takes effect -/

/-- An integer rounds to itself. -/
theorem roundHalfEven_intCast (z : Int) : roundHalfEven (z : ℚ) = z := by
  simp [roundHalfEven]

/-- binary64 represents every multiple `k/8` with `k < 2^53` exactly. -/
theorem roundBinary64_eighth (k : Nat) (hk : k < 2 ^ 53) :
    roundBinary64 ((k : ℚ) / 8) = (k : ℚ) / 8 := by
  by_cases hk0 : k = 0
  · subst hk0
    simp [roundBinary64]
  have hkpos : (0 : ℚ) < (k : ℚ) := by exact_mod_cast Nat.pos_of_ne_zero hk0
  have hx : (0 : ℚ) < (k : ℚ) / 8 := by positivity
  have hlt : (k : ℚ) / 8 < (2 : ℚ) ^ (50 : ℤ) := by
    have h1 : (k : ℚ) < 2 ^ 53 := by exact_mod_cast hk
    have h2 : ((2 : ℚ) ^ (50 : ℤ)) = 2 ^ 53 / 8 := by norm_num
    rw [h2]
    exact div_lt_div_of_pos_right h1 (by norm_num)
  have he : Int.log 2 ((k : ℚ) / 8) < 50 := by
    have := (Int.lt_zpow_iff_log_lt (b := 2) (by norm_num) hx (x := 50)).mp
    exact this (by exact_mod_cast hlt)
  obtain ⟨m, hm⟩ : ∃ m : Nat, Int.log 2 ((k : ℚ) / 8) = 49 - (m : ℤ) :=
    ⟨(49 - Int.log 2 ((k : ℚ) / 8)).toNat, by omega⟩
  have hpow : (2 : ℚ) ^ (49 - (m : ℤ) - 52) = ((2 : ℚ) ^ (m + 3))⁻¹ := by
    rw [show (49 - (m : ℤ) - 52) = -((m + 3 : Nat) : ℤ) by push_cast; ring, zpow_neg,
      zpow_natCast]
  have hq : (k : ℚ) / 8 / ((2 : ℚ) ^ (m + 3))⁻¹ = (((k : ℤ) * 2 ^ m : ℤ) : ℚ) := by
    push_cast
    rw [div_inv_eq_mul, pow_add]
    ring
  unfold roundBinary64
  rw [if_neg (ne_of_gt hx), abs_of_pos hx, hm, hpow, hq, roundHalfEven_intCast]
  push_cast
  rw [pow_add]
  field_simp
  ring

/-- The binary64 value of `j * 1.0 / 8` is `j / 8` for `j ≤ 7`. -/
theorem delta64_eq (j : Nat) (hj : j ≤ 7) : delta64 (j : Int) = (j : ℚ) / 8 := by
  unfold delta64 NUM_REGIONS
  have h1 : roundBinary64 (((j : Int) : ℚ) * 1) = (j : ℚ) := by
    have := roundBinary64_eighth (8 * j) (by omega)
    have hc : ((8 * j : Nat) : ℚ) / 8 = ((j : Int) : ℚ) * 1 := by
      push_cast; ring
    rw [hc] at this
    rw [this]
    push_cast
    ring
  rw [h1]
  exact_mod_cast roundBinary64_eighth j (by omega)

/-- On exact counters with room for seven more eighths, the binary64 accumulation is
the rational one. -/
theorem accumulate64_eq (bound : Nat) (s : MeterState) (n t : Int)
    (hex : countersExact bound s) (hb : bound + 7 < 2 ^ 53)
    (hn : isObservation n) (hs : isObservation s.last_region_number) :
    accumulate64 s n t = accumulate s n t := by
  unfold accumulate64 accumulate
  by_cases hg : regionChanged n s.last_region_number = true
  · obtain ⟨j, hj1, hj7, hj⟩ := elapsed_regions_range n s.last_region_number hn hs hg
    obtain ⟨⟨k1, hk1, e1⟩, ⟨k2, hk2, e2⟩, ⟨k3, hk3, e3⟩, ⟨k4, hk4, e4⟩⟩ := hex
    have hsum : ∀ k : Nat, k ≤ bound →
        roundBinary64 ((k : ℚ) / 8 + (j : ℚ) / 8) = (k : ℚ) / 8 + (j : ℚ) / 8 := by
      intro k hk
      have := roundBinary64_eighth (k + j) (by omega)
      have hc : ((k + j : Nat) : ℚ) / 8 = (k : ℚ) / 8 + (j : ℚ) / 8 := by
        push_cast; ring
      rw [hc] at this
      exact this
    simp only [hg, if_true, hj, delta64_eq j hj7, e1, e2, e3, e4, hsum k1 hk1, hsum k2 hk2,
      hsum k3 hk3, hsum k4 hk4]
    simp [NUM_REGIONS]
  · simp only [hg, if_false]
    simp

/-- One call keeps the counters exact, with numerators at most seven larger. -/
theorem updateValues_countersExact (bound : Nat) (s : MeterState) (n t : Int)
    (hex : countersExact bound s)
    (hn : isObservation n) (hs : isObservation s.last_region_number) :
    countersExact (bound + 7) (updateValues s n t) := by
  have hd : ∃ j : Nat, j ≤ 7 ∧ delta n s.last_region_number = (j : ℚ) / 8 := by
    unfold delta
    by_cases hg : regionChanged n s.last_region_number = true
    · obtain ⟨j, _, hj7, hj⟩ := elapsed_regions_range n s.last_region_number hn hs hg
      refine ⟨j, hj7, ?_⟩
      rw [if_pos hg, hj]
      simp [NUM_REGIONS]
    · exact ⟨0, by omega, by simp [hg]⟩
  obtain ⟨j, hj7, hj⟩ := hd
  have hstep : ∀ c : ℚ, (∃ k : Nat, k ≤ bound ∧ c = (k : ℚ) / 8) →
      ∃ k : Nat, k ≤ bound + 7 ∧ c + delta n s.last_region_number = (k : ℚ) / 8 := by
    rintro c ⟨k, hk, rfl⟩
    refine ⟨k + j, by omega, ?_⟩
    rw [hj]
    push_cast
    ring
  have hzero : ∃ k : Nat, k ≤ bound + 7 ∧ (0 : ℚ) = (k : ℚ) / 8 := ⟨0, by omega, by simp⟩
  obtain ⟨h1, h2, h3, h4⟩ := hex
  refine ⟨?_, ?_, ?_, ?_⟩
  · rw [updateValues_total]
    exact hstep _ h1
  · rw [updateValues_last_minute]
    split_ifs
    · exact hzero
    · exact hstep _ h2
  · rw [updateValues_last_10minute]
    split_ifs
    · exact hzero
    · exact hstep _ h3
  · rw [updateValues_last_drain]
    split_ifs
    · exact hzero
    · exact hstep _ h4

/-- A run in binary64 arithmetic is the run in rational arithmetic as long as the
numerators stay below `2^53`. -/
theorem run64_eq_run_from (calls : List (Int × Int)) :
    ∀ (bound : Nat) (s : MeterState), countersExact bound s →
      isObservation s.last_region_number → (∀ c ∈ calls, isObservation c.1) →
      bound + 7 * calls.length < 2 ^ 53 →
      run64 s calls = run s calls := by
  induction calls with
  | nil => intro _ s _ _ _ _; rfl
  | cons c rest ih =>
    intro bound s hex hs hall hb
    obtain ⟨n, t⟩ := c
    have hn : isObservation n := hall (n, t) (List.mem_cons_self _ _)
    have hrest : ∀ c ∈ rest, isObservation c.1 :=
      fun c hc => hall c (List.mem_cons_of_mem _ hc)
    simp only [List.length_cons] at hb
    have hstep : updateValues64 s n t = updateValues s n t := by
      unfold updateValues64 updateValues
      have hex0 : countersExact bound (initTimes s t) := by
        simpa only [countersExact, initTimes_eq] using hex
      have hs0 : isObservation (initTimes s t).last_region_number := by
        simpa only [initTimes_eq] using hs
      rw [accumulate64_eq bound (initTimes s t) n t hex0 (by omega) hn hs0]
    have hnext : isObservation (updateValues s n t).last_region_number := by
      rw [updateValues_last_region_number]
      split_ifs
      · exact hn
      · exact hs
    rw [run64, run, hstep]
    exact ih (bound + 7) _ (updateValues_countersExact bound s n t hex hn hs) hnext hrest
      (by omega)

/-- From the initial state, fewer than `2^50` calls never make binary64 round. -/
theorem run64_eq_run (meter_start_value : ℚ) (calls : List (Int × Int))
    (hobs : ∀ c ∈ calls, isObservation c.1) (hlen : calls.length < 2 ^ 50) :
    run64 (initialState meter_start_value) calls =
      run (initialState meter_start_value) calls := by
  apply run64_eq_run_from calls 0 _ _ (Or.inl rfl) hobs (by omega)
  exact ⟨⟨0, le_refl _, by simp [initialState]⟩, ⟨0, le_refl _, by simp [initialState]⟩,
    ⟨0, le_refl _, by simp [initialState]⟩, ⟨0, le_refl _, by simp [initialState]⟩⟩

/-- The exponent `Int.log 2 x` is `e` when `2^e ≤ x < 2^(e+1)`. -/
theorem log_two_eq (x : ℚ) (e : Int) (h1 : (2 : ℚ) ^ e ≤ x) (h2 : x < (2 : ℚ) ^ (e + 1)) :
    Int.log 2 x = e := by
  have hx : 0 < x := lt_of_lt_of_le (by positivity) h1
  have ha : e ≤ Int.log 2 x :=
    (Int.zpow_le_iff_le_log (b := 2) (by norm_num) hx).mp (by exact_mod_cast h1)
  have hb : Int.log 2 x < e + 1 :=
    (Int.lt_zpow_iff_log_lt (b := 2) (by norm_num) hx).mp (by exact_mod_cast h2)
  omega

/-- The constant `DBL_0_8` is the binary64 rounding of `8/10`. -/
theorem roundBinary64_0_8 : roundBinary64 (8 / 10) = (DBL_0_8 : ℚ) / 2 ^ 52 := by
  have hlog : Int.log 2 |(8 / 10 : ℚ)| = -1 := by
    rw [abs_of_pos (by norm_num)]
    exact log_two_eq _ _ (by norm_num) (by norm_num)
  unfold roundBinary64
  rw [if_neg (by norm_num), hlog]
  have hfloor : Int.floor ((8 / 10 : ℚ) / (2 : ℚ) ^ ((-1 : ℤ) - 52)) = 7205759403792793 := by
    rw [Int.floor_eq_iff]
    constructor <;> norm_num
  unfold roundHalfEven
  rw [hfloor]
  norm_num [DBL_0_8]

/-- The threshold of a ten-by-ten region: the binary64 product of `100` and the
constant `0.8` is `80`, in the rational rounding model as in `mul_0_8`. -/
theorem roundBinary64_threshold :
    roundBinary64 (100 * roundBinary64 (8 / 10)) = (mul_0_8 100 : ℚ) / 2 ^ 52 ∧
      (mul_0_8 100 : ℚ) / 2 ^ 52 = 80 := by
  have h80 : (mul_0_8 100 : ℚ) / 2 ^ 52 = 80 := by
    rw [mul_0_8_hundred]
    norm_num
  refine ⟨?_, h80⟩
  rw [h80, roundBinary64_0_8]
  have hlog : Int.log 2 |(100 * ((DBL_0_8 : ℚ) / 2 ^ 52) : ℚ)| = 6 := by
    rw [abs_of_pos (by norm_num [DBL_0_8])]
    exact log_two_eq _ _ (by norm_num [DBL_0_8]) (by norm_num [DBL_0_8])
  unfold roundBinary64
  rw [if_neg (by norm_num [DBL_0_8]), hlog]
  have hfloor : Int.floor ((100 * ((DBL_0_8 : ℚ) / 2 ^ 52)) / (2 : ℚ) ^ ((6 : ℤ) - 52)) =
      5629499534213120 := by
    rw [Int.floor_eq_iff]
    constructor <;> norm_num [DBL_0_8]
  unfold roundHalfEven
  rw [hfloor]
  norm_num [DBL_0_8]

/-! ## The start value -/

/-- The start value after `-start_value sv`, with `sv` converted to `v`: when `v ≠ 0`
it is `v` and the total-value file is not opened; when `v = 0` the file is opened and
its value, if it has one, becomes the start value. -/
theorem startup_override (scan : String → Option ℚ) (prog sv : String) (v : ℚ)
    (file : Option String) (hprog : prog ≠ "-start_value") (hv : scan sv = some v) :
    (v ≠ 0 →
        startup scan [prog, "-start_value", sv] file =
          some ⟨decide (prog = "-di"), v, false⟩) ∧
      (v = 0 →
        startup scan [prog, "-start_value", sv] file =
          some ⟨decide (prog = "-di"), ((file.bind scan).getD 0), true⟩) := by
  have hscan : scanArgs scan [prog, "-start_value", sv] (false, 0) =
      some (decide (prog = "-di"), v) := by
    simp [scanArgs, hprog, hv]
  constructor
  · intro hne
    simp [startup, hscan, hne]
  · intro h0
    subst h0
    cases file with
    | none => simp [startup, hscan]
    | some content => simp [startup, hscan]

/-- Without `-start_value` on the command line the total-value file seeds the start
value. -/
theorem startup_without_override (scan : String → Option ℚ) (argv : List String)
    (file : Option String) (hno : "-start_value" ∉ argv) :
    ∃ display_image : Bool,
      startup scan argv file = some ⟨display_image, ((file.bind scan).getD 0), true⟩ := by
  have hscan : ∀ (l : List String) (acc : Bool × ℚ), "-start_value" ∉ l →
      ∃ d : Bool, scanArgs scan l acc = some (d, acc.2) := by
    intro l
    induction l with
    | nil => intro acc _; exact ⟨acc.1, rfl⟩
    | cons a rest ih =>
      intro acc hmem
      have ha : a ≠ "-start_value" := fun h => hmem (h ▸ List.mem_cons_self _ _)
      have hrest : "-start_value" ∉ rest := fun h => hmem (List.mem_cons_of_mem _ h)
      obtain ⟨d, hd⟩ := ih (if a = "-di" then true else acc.1, acc.2) hrest
      refine ⟨d, ?_⟩
      rw [← hd]
      cases rest <;> simp [scanArgs, ha]
  obtain ⟨d, hd⟩ := hscan argv (false, 0) hno
  refine ⟨d, ?_⟩
  cases file with
  | none => simp [startup, hd]
  | some content => simp [startup, hd]

/-! ## Invariants of a run -/

/-- Between observations the delta is never negative. -/
theorem delta_nonneg (n a : Int) (hn : isObservation n) (ha : isObservation a) :
    0 ≤ delta n a := by
  unfold delta
  by_cases hg : regionChanged n a = true
  · obtain ⟨j, _, _, hj⟩ := elapsed_regions_range n a hn ha hg
    rw [if_pos hg, hj]
    simp only [NUM_REGIONS]
    positivity
  · rw [if_neg hg]

/-- One call keeps the remembered region an observation. -/
theorem updateValues_isObservation (s : MeterState) (n t : Int)
    (hn : isObservation n) (hs : isObservation s.last_region_number) :
    isObservation (updateValues s n t).last_region_number := by
  rw [updateValues_last_region_number]
  split_ifs
  · exact hn
  · exact hs

/-- One call keeps the counters ordered. -/
theorem updateValues_countersOrdered (s : MeterState) (n t : Int)
    (hn : isObservation n) (hs : isObservation s.last_region_number)
    (hord : countersOrdered s) : countersOrdered (updateValues s n t) := by
  have hd := delta_nonneg n s.last_region_number hn hs
  obtain ⟨h1, h2, h3, h4, h5⟩ := hord
  unfold countersOrdered
  rw [updateValues_last_minute, updateValues_last_drain, updateValues_total,
    updateValues_last_10minute]
  refine ⟨?_, ?_, ?_, ?_, ?_⟩
  · split_ifs <;> linarith
  · by_cases ha : minuteDue s t
    · by_cases hb : s.last_minute + delta n s.last_region_number = 0
      · simp [ha, hb]
      · rw [if_pos ha, if_neg (fun h => hb h.2)]
        linarith
    · rw [if_neg ha, if_neg (fun h => ha h.1)]
      linarith
  · split_ifs <;> linarith
  · split_ifs <;> linarith
  · split_ifs <;> linarith

/-- A run of observations keeps the remembered region an observation and the counters
ordered. -/
theorem run_invariant (calls : List (Int × Int)) :
    ∀ s : MeterState, isObservation s.last_region_number → countersOrdered s →
      (∀ c ∈ calls, isObservation c.1) →
      isObservation (run s calls).last_region_number ∧ countersOrdered (run s calls) := by
  induction calls with
  | nil => intro s hs hord _; exact ⟨hs, hord⟩
  | cons c rest ih =>
    intro s hs hord hall
    obtain ⟨n, t⟩ := c
    have hn : isObservation n := hall (n, t) (List.mem_cons_self _ _)
    have hrest : ∀ c ∈ rest, isObservation c.1 :=
      fun c hc => hall c (List.mem_cons_of_mem _ hc)
    rw [run]
    exact ih _ (updateValues_isObservation s n t hn hs)
      (updateValues_countersOrdered s n t hn hs hord) hrest

/-- The initial state has ordered counters. -/
theorem initialState_countersOrdered (meter_start_value : ℚ) :
    countersOrdered (initialState meter_start_value) := by
  simp [countersOrdered, initialState]

/-- Across a run without idle-minute flush `last_drain` does not decrease. -/
theorem run_last_drain_mono (calls : List (Int × Int)) :
    ∀ s : MeterState, isObservation s.last_region_number →
      (∀ c ∈ calls, isObservation c.1) → noIdleFlush s calls →
      s.last_drain ≤ (run s calls).last_drain := by
  induction calls with
  | nil => intro s _ _ _; exact le_refl _
  | cons c rest ih =>
    intro s hs hall hno
    obtain ⟨n, t⟩ := c
    have hn : isObservation n := hall (n, t) (List.mem_cons_self _ _)
    have hrest : ∀ c ∈ rest, isObservation c.1 :=
      fun c hc => hall c (List.mem_cons_of_mem _ hc)
    obtain ⟨hidle, hno1⟩ := hno
    unfold idleFlush at hidle
    have hstep : s.last_drain ≤ (updateValues s n t).last_drain := by
      rw [updateValues_last_drain, if_neg hidle]
      linarith [delta_nonneg n s.last_region_number hn hs]
    rw [run]
    exact le_trans hstep (ih _ (updateValues_isObservation s n t hn hs) hrest hno1)

/-- From a tracking state, a run of observations adds to `total` a whole number of
eighths that is congruent modulo 8 to the distance between the last and the first
remembered zone. -/
theorem run_position (calls : List (Int × Int)) :
    ∀ s : MeterState, isZone s.last_region_number →
      (∀ c ∈ calls, isObservation c.1) →
      isZone (run s calls).last_region_number ∧
      ∃ j : Nat, (run s calls).total = s.total + (j : ℚ) / 8 ∧
        (j : Int) % 8 = ((run s calls).last_region_number - s.last_region_number) % 8 := by
  induction calls with
  | nil =>
    intro s hs _
    exact ⟨hs, 0, by simp [run], by simp [run]⟩
  | cons c rest ih =>
    intro s hs hall
    obtain ⟨n, t⟩ := c
    have hn : isObservation n := hall (n, t) (List.mem_cons_self _ _)
    have hrest : ∀ c ∈ rest, isObservation c.1 :=
      fun c hc => hall c (List.mem_cons_of_mem _ hc)
    have hs1 : s.last_region_number ≠ -1 := by obtain ⟨h, _⟩ := hs; omega
    rw [run]
    by_cases h1 : n = -1
    · have hlast : (updateValues s n t).last_region_number = s.last_region_number := by
        rw [updateValues_last_region_number, if_neg (not_not.mpr h1)]
      have htot : (updateValues s n t).total = s.total := by
        rw [updateValues_total, h1, delta_none, add_zero]
      obtain ⟨hz, j, hj1, hj2⟩ := ih (updateValues s n t) (by rw [hlast]; exact hs) hrest
      exact ⟨hz, j, by rw [hj1, htot], by rw [hj2, hlast]⟩
    · have hzn : isZone n := hn.resolve_left h1
      have hlast : (updateValues s n t).last_region_number = n := by
        rw [updateValues_last_region_number, if_pos h1]
      obtain ⟨hz, j, hj1, hj2⟩ := ih (updateValues s n t) (by rw [hlast]; exact hzn) hrest
      rw [hlast] at hj2
      by_cases h2 : s.last_region_number = n
      · have htot : (updateValues s n t).total = s.total := by
          rw [updateValues_total, h2, delta_same, add_zero]
        exact ⟨hz, j, by rw [hj1, htot], by rw [hj2, h2]⟩
      · have htot : (updateValues s n t).total =
            s.total + (elapsed s.last_region_number n : ℚ) / 8 := by
          rw [updateValues_total, delta_zone _ _ hs hzn h2]
        obtain ⟨ha0, ha8⟩ := hs
        obtain ⟨hn0, hn8⟩ := hzn
        refine ⟨hz, (elapsed s.last_region_number n).toNat + j, ?_, ?_⟩
        · rw [hj1, htot]
          have hcast : (((elapsed s.last_region_number n).toNat : Nat) : ℚ) =
              ((elapsed s.last_region_number n : Int) : ℚ) := by
            have : (((elapsed s.last_region_number n).toNat : Nat) : Int) =
                elapsed s.last_region_number n := by
              unfold elapsed; omega
            exact_mod_cast this
          push_cast
          rw [hcast]
          ring
        · have : (((elapsed s.last_region_number n).toNat : Nat) : Int) =
              elapsed s.last_region_number n := by
            unfold elapsed; omega
          push_cast
          rw [this]
          unfold elapsed
          omega

/-! ## Spacing of the flushes -/

/-- The frame-wide facts about the table used below. -/
theorem region_in_frame (r : REGION) (hr : r ∈ region) :
    r.x + r.w < IMAGE_WIDTH ∧ r.y + r.h < IMAGE_HEIGHT := by
  simp only [region, List.mem_cons, List.mem_singleton, List.not_mem_nil, or_false] at hr
  rcases hr with h | h | h | h | h | h | h | h <;> subst h <;> decide

/-- The count of dark pixels of a table region only depends on the pixels of the
frame. -/
theorem countDark_congr (img1 img2 : Image) (r : REGION) (hr : r ∈ region)
    (hagree : ∀ x y, x < IMAGE_WIDTH → y < IMAGE_HEIGHT → img1 x y = img2 x y) :
    countDark img1 r = countDark img2 r := by
  obtain ⟨hx, hy⟩ := region_in_frame r hr
  rw [countDark_eq_card, countDark_eq_card]
  unfold darkPixels
  congr 1
  apply Finset.filter_congr
  intro p hp
  simp only [Finset.mem_product, Finset.mem_Ico] at hp
  rw [hagree p.1 p.2 (by omega) (by omega)]

/-- The loop of `regionHit` returns the same for two frames that agree on the zones it
still has to visit. -/
theorem regionHitLoop_congr (img1 img2 : Image) (n : Nat) :
    ∀ i : Nat,
      (∀ k, i ≤ k → k < i + n → zoneHit img1 (regionAt k) = zoneHit img2 (regionAt k)) →
      regionHitLoop img1 n i = regionHitLoop img2 n i := by
  induction n with
  | zero => intro i _; rfl
  | succ m ih =>
    intro i h
    simp only [regionHitLoop]
    rw [h i (le_refl _) (by omega), ih (i + 1) (fun k h1 h2 => h k (by omega) (by omega))]

/-- The coordinates `regionHit` reads for a region are those of its rectangle. -/
theorem mem_regionHitCoords (r : REGION) (p : Nat × Nat) :
    p ∈ regionHitCoords r ↔
      p ∈ Finset.Ico r.x (r.x + r.w) ×ˢ Finset.Ico r.y (r.y + r.h) := by
  obtain ⟨px, py⟩ := p
  simp only [regionHitCoords, List.mem_flatMap, List.mem_map, List.mem_range'_1,
    Prod.mk.injEq, Finset.mem_product, Finset.mem_Ico]
  constructor
  · rintro ⟨x, hx, y, hy, rfl, rfl⟩
    exact ⟨hx, hy⟩
  · rintro ⟨hx, hy⟩
    exact ⟨px, hx, py, hy, rfl, rfl⟩

/-- The coordinates `drawRegion` writes lie on the closed rectangle of the region. -/
theorem mem_drawRegionCoords (r : REGION) (p : Nat × Nat) (hp : p ∈ drawRegionCoords r) :
    r.x ≤ p.1 ∧ p.1 ≤ r.x + r.w ∧ r.y ≤ p.2 ∧ p.2 ≤ r.y + r.h := by
  obtain ⟨px, py⟩ := p
  simp only [drawRegionCoords, List.mem_append, List.mem_map, List.mem_range'_1,
    Prod.mk.injEq] at hp
  rcases hp with ((⟨x, hx, rfl, rfl⟩ | ⟨x, hx, rfl, rfl⟩) | ⟨y, hy, rfl, rfl⟩) |
    ⟨y, hy, rfl, rfl⟩ <;> simp only <;> omega

/-- Any two entries of the table are apart. -/
theorem regionAt_apart (i j : Nat) (hij : i < j) (hj : j < NUM_REGIONS) :
    apart (regionAt i) (regionAt j) := by
  simp only [NUM_REGIONS] at hj
  interval_cases j <;> interval_cases i <;> decide

/-- Regions that are apart have no read coordinate in common. -/
theorem apart_regionHitCoords (a b : REGION) (hab : apart a b) (p : Nat × Nat)
    (hp : p ∈ regionHitCoords a) : p ∉ regionHitCoords b := by
  rw [mem_regionHitCoords] at hp ⊢
  simp only [Finset.mem_product, Finset.mem_Ico] at hp ⊢
  unfold apart at hab
  omega

/-! ## The claims -/

/-- Claim C1. For every list of observations (none or a zone index), ingested one per
call from the initial state at any timestamps, the resulting `total` is one eighth of
the sum of `elapsed(p, q) = (q - p + 8) mod 8` over the consecutive non-none
observations `p, q` with `p ≠ q`; and the same holds with the arithmetic rounded as
binary64 rounds it, for every list of fewer than `2^50` observations. -/
theorem C1_total_is_eighth_of_elapsed_sum (meter_start_value : ℚ)
    (calls : List (Int × Int)) (hobs : ∀ c ∈ calls, isObservation c.1) :
    (run (initialState meter_start_value) calls).total =
        specTotal (calls.map Prod.fst) ∧
      (calls.length < 2 ^ 50 →
        (run64 (initialState meter_start_value) calls).total =
          specTotal (calls.map Prod.fst)) := by
  have h : (run (initialState meter_start_value) calls).total =
      specTotal (calls.map Prod.fst) := by
    rw [run_total calls (initialState meter_start_value) (Or.inl rfl) hobs]
    simp [initialState, specTotal, List.filter_cons]
  refine ⟨h, fun hlen => ?_⟩
  rw [run64_eq_run meter_start_value calls hobs hlen]
  exact h

/-- Witness of C1: the sequence `[0,0,1,3,7,0]`, one second apart, gives the deltas
`0, 0, 1/8, 2/8, 4/8, 1/8` and the total `1`, in rational and in binary64
arithmetic. -/
theorem C1_witness :
    specTotal [0, 0, 1, 3, 7, 0] = 1 ∧
      (run (initialState 0) [(0, 1), (0, 2), (1, 3), (3, 4), (7, 5), (0, 6)]).total = 1 ∧
      (run64 (initialState 0) [(0, 1), (0, 2), (1, 3), (3, 4), (7, 5), (0, 6)]).total = 1 ∧
      totalDeltas (initialState 0) [(0, 1), (0, 2), (1, 3), (3, 4), (7, 5), (0, 6)] =
        [0, 0, 1 / 8, 2 / 8, 4 / 8, 1 / 8] := by
  have hspec : specTotal [0, 0, 1, 3, 7, 0] = 1 := by
    norm_num [specTotal, pairSum, elapsed, List.filter_cons]
  have h := C1_total_is_eighth_of_elapsed_sum 0
    [(0, 1), (0, 2), (1, 3), (3, 4), (7, 5), (0, 6)] (by decide)
  refine ⟨hspec, ?_, ?_, ?_⟩
  · rw [h.1]
    exact hspec
  · rw [h.2 (by norm_num)]
    exact hspec
  · simp [totalDeltas, updateValues_total, updateValues_last_region_number, initialState,
      delta, regionChanged, elapsed_regions, NUM_REGIONS]

/-- Claim C2. With `last_region_number = a` and a new observation `b`, both zone
indices: when `a ≠ b` the guard of line 154 holds and `elapsed_regions` is
`(b - a + N) mod N`, a value in `[1, N-1]`, which is what the call adds (divided by
`N`) to `total`; when `b = a` the guard fails, the block of lines 156-165 is skipped
and nothing is added or printed. -/
theorem C2_elapsed_regions_wraparound (s : MeterState) (a b t : Int)
    (ha : isZone a) (hb : isZone b) (hs : s.last_region_number = a) :
    (a ≠ b →
      regionChanged b a = true ∧
      elapsed_regions b a = (b - a + (NUM_REGIONS : Int)) % (NUM_REGIONS : Int) ∧
      1 ≤ elapsed_regions b a ∧ elapsed_regions b a ≤ (NUM_REGIONS : Int) - 1 ∧
      (updateValues s b t).total =
        s.total + (((b - a + (NUM_REGIONS : Int)) % (NUM_REGIONS : Int) : Int) : ℚ) /
          (NUM_REGIONS : ℚ)) ∧
    (a = b →
      regionChanged b a = false ∧
      accumulate (initTimes s t) b t = initTimes s t ∧
      (updateValues s b t).total = s.total ∧
      (emitted s (updateValues s b t)).any isHitLine = false) := by
  obtain ⟨ha0, ha8⟩ := ha
  obtain ⟨hb0, hb8⟩ := hb
  have hel : elapsed_regions b a = (b - a + (NUM_REGIONS : Int)) % (NUM_REGIONS : Int) := by
    simpa [elapsed, NUM_REGIONS] using elapsed_regions_eq a b ⟨ha0, ha8⟩ ⟨hb0, hb8⟩
  constructor
  · intro hne
    have hg : regionChanged b a = true := by
      have h1 : a ≠ -1 := by omega
      have h2 : b ≠ -1 := by omega
      have h3 : b ≠ a := fun h => hne h.symm
      simp [regionChanged, h1, h2, h3]
    refine ⟨hg, hel, ?_, ?_, ?_⟩
    · rw [hel]; simp only [NUM_REGIONS, Nat.cast_ofNat]; omega
    · rw [hel]; simp only [NUM_REGIONS, Nat.cast_ofNat]; omega
    · rw [updateValues_total, hs, delta, if_pos hg, hel]
      simp
  · intro heq
    subst heq
    have hg : regionChanged a a = false := by simp [regionChanged]
    refine ⟨hg, ?_, ?_, ?_⟩
    · have : (initTimes s t).last_region_number = a := by
        rw [initTimes_eq]; exact hs
      unfold accumulate
      rw [this, hg]
      simp
    · rw [updateValues_total, hs, delta_same, add_zero]
    · rw [emitted, updateValues_log, List.drop_left, hs, hg]
      simp only [Bool.false_eq_true, if_false, List.nil_append]
      split_ifs <;> simp [isHitLine]

/-- Witness of C2: from zone 7 to zone 0 one region has elapsed. -/
theorem C2_witness :
    isZone 7 ∧ isZone 0 ∧ elapsed_regions 0 7 = 1 ∧
      (updateValues { initialState 0 with last_region_number := 7 } 0 5).total = 1 / 8 ∧
      (updateValues { initialState 0 with last_region_number := 7 } 7 5).total = 0 := by
  have h := C2_elapsed_regions_wraparound { initialState 0 with last_region_number := 7 }
    7 0 5 (by decide) (by decide) rfl
  have h2 := C2_elapsed_regions_wraparound { initialState 0 with last_region_number := 7 }
    7 7 5 (by decide) (by decide) rfl
  refine ⟨by decide, by decide, ?_, ?_, ?_⟩
  · rw [(h.1 (by decide)).2.1]; decide
  · rw [(h.1 (by decide)).2.2.2.2]
    norm_num [initialState, NUM_REGIONS]
  · rw [(h2.2 rfl).2.2.1]
    rfl

/-- Claim C3. For every starting zone `z`, the full cycle `z, z+1, ..., z+7, z`
(indices mod 8), ingested from the initial state at any times, produces eight deltas
of `1/8` whose sum, and hence `total`, is exactly `1`, in rational and in binary64
arithmetic. -/
theorem C3_full_cycle_is_one_unit (meter_start_value : ℚ) (z : Int) (time : Nat → Int)
    (hz : isZone z) :
    totalDeltas (initialState meter_start_value) (cycleCalls z time) =
        0 :: List.replicate 8 (1 / 8) ∧
      (totalDeltas (initialState meter_start_value) (cycleCalls z time)).sum = 1 ∧
      (run (initialState meter_start_value) (cycleCalls z time)).total = 1 ∧
      (run64 (initialState meter_start_value) (cycleCalls z time)).total = 1 := by
  obtain ⟨h0, h8⟩ := hz
  have hd : totalDeltas (initialState meter_start_value) (cycleCalls z time) =
      0 :: List.replicate 8 (1 / 8) := by
    interval_cases z <;>
      simp [cycleCalls, List.range, List.range.loop, totalDeltas, updateValues_total,
        updateValues_last_region_number, initialState, delta, regionChanged,
        elapsed_regions, NUM_REGIONS, List.replicate]
  have hsum : (totalDeltas (initialState meter_start_value) (cycleCalls z time)).sum = 1 := by
    rw [hd]; norm_num [List.replicate]
  have htotal : (run (initialState meter_start_value) (cycleCalls z time)).total = 1 := by
    have := totalDeltas_sum (cycleCalls z time) (initialState meter_start_value)
    rw [hsum] at this
    simp only [initialState] at this ⊢
    linarith
  have hobs : ∀ c ∈ cycleCalls z time, isObservation c.1 := by
    intro c hc
    simp only [cycleCalls, List.mem_map, List.mem_range] at hc
    obtain ⟨k, _, rfl⟩ := hc
    right
    constructor <;> omega
  have hlen : (cycleCalls z time).length < 2 ^ 50 := by
    simp [cycleCalls]
  refine ⟨hd, hsum, htotal, ?_⟩
  rw [run64_eq_run meter_start_value _ hobs hlen]
  exact htotal

/-- Witness of C3: the cycle that starts at zone 5. -/
theorem C3_witness :
    isZone 5 ∧
      (cycleCalls 5 (fun k => (k : Int))).map Prod.fst = [5, 6, 7, 0, 1, 2, 3, 4, 5] ∧
      (run (initialState 0) (cycleCalls 5 (fun k => (k : Int)))).total = 1 :=
  ⟨by decide, by decide,
    (C3_full_cycle_is_one_unit 0 5 (fun k => (k : Int)) (by decide)).2.2.1⟩

/-- Claim C4. In the tracking state, a zone observation that differs from
`last_region_number`, in a call where neither flush condition holds, adds the same
`delta = elapsed / 8` (at least `1/8`) to `total`, `last_minute`, `last_10minute` and
`last_drain`, and makes the observation the new `last_region_number`. -/
theorem C4_transition_adds_same_delta (s : MeterState) (n t : Int)
    (hlast : isZone s.last_region_number) (hn : isZone n)
    (hne : n ≠ s.last_region_number)
    (hminute : ¬ minuteDue s t) (hten : ¬ tenMinuteDue s t) :
    (updateValues s n t).total = s.total + (elapsed s.last_region_number n : ℚ) / 8 ∧
      (updateValues s n t).last_minute =
        s.last_minute + (elapsed s.last_region_number n : ℚ) / 8 ∧
      (updateValues s n t).last_10minute =
        s.last_10minute + (elapsed s.last_region_number n : ℚ) / 8 ∧
      (updateValues s n t).last_drain =
        s.last_drain + (elapsed s.last_region_number n : ℚ) / 8 ∧
      (updateValues s n t).last_region_number = n ∧
      (elapsed s.last_region_number n : ℚ) =
        (elapsed_regions n s.last_region_number : ℚ) ∧
      1 ≤ elapsed s.last_region_number n ∧ elapsed s.last_region_number n ≤ 7 := by
  have hd := delta_zone s.last_region_number n hlast hn (fun h => hne h.symm)
  have hn1 : n ≠ -1 := by obtain ⟨h, _⟩ := hn; omega
  have hel := elapsed_regions_eq s.last_region_number n hlast hn
  refine ⟨?_, ?_, ?_, ?_, ?_, ?_, ?_, ?_⟩
  · rw [updateValues_total, hd]
  · rw [updateValues_last_minute, if_neg hminute, hd]
  · rw [updateValues_last_10minute, if_neg hten, hd]
  · rw [updateValues_last_drain, if_neg (fun h => hminute h.1), hd]
  · rw [updateValues_last_region_number, if_pos hn1]
  · rw [hel]
  · obtain ⟨h1, h2⟩ := hlast
    obtain ⟨h3, h4⟩ := hn
    unfold elapsed
    omega
  · obtain ⟨h1, h2⟩ := hlast
    obtain ⟨h3, h4⟩ := hn
    unfold elapsed
    omega

/-- Witness of C4: tracking at zone 3 with counters `1/4`, zone 7 is seen ten seconds
after the last flush. -/
theorem C4_witness :
    (updateValues
        { last_update_time := 100, last_update_10time := 100, last_region_number := 3,
          frame_rate := 40, total := 1 / 4, last_drain := 1 / 4, last_minute := 1 / 4,
          last_10minute := 1 / 4, force_print := false, meter_start_value := 0,
          log := [] } 7 110).last_drain = 3 / 4 := by
  have h := (C4_transition_adds_same_delta
    { last_update_time := 100, last_update_10time := 100, last_region_number := 3,
      frame_rate := 40, total := 1 / 4, last_drain := 1 / 4, last_minute := 1 / 4,
      last_10minute := 1 / 4, force_print := false, meter_start_value := 0,
      log := [] } 7 110 (by decide) (by decide) (by decide) (by decide)
      (by decide)).2.2.2.1
  rw [h]
  norm_num [elapsed]

/-- Claim C5. From the initial state, after any number of none observations, the
first non-none observation `z` becomes `last_region_number` and adds nothing: `total`,
`last_minute`, `last_10minute` and `last_drain` are all `0` after that call. -/
theorem C5_first_observation_adds_nothing (meter_start_value : ℚ) (times : List Int)
    (z t : Int) (hz : z ≠ -1) :
    (run (initialState meter_start_value)
        (times.map (fun u => ((-1 : Int), u)) ++ [(z, t)])).last_region_number = z ∧
      (run (initialState meter_start_value)
        (times.map (fun u => ((-1 : Int), u)) ++ [(z, t)])).total = 0 ∧
      (run (initialState meter_start_value)
        (times.map (fun u => ((-1 : Int), u)) ++ [(z, t)])).last_minute = 0 ∧
      (run (initialState meter_start_value)
        (times.map (fun u => ((-1 : Int), u)) ++ [(z, t)])).last_10minute = 0 ∧
      (run (initialState meter_start_value)
        (times.map (fun u => ((-1 : Int), u)) ++ [(z, t)])).last_drain = 0 := by
  obtain ⟨h1, h2, h3, h4, h5⟩ :=
    run_none_keeps_zero times (initialState meter_start_value)
      rfl rfl rfl rfl rfl
  rw [run_append]
  simp only [run]
  refine ⟨?_, ?_, ?_, ?_, ?_⟩
  · rw [updateValues_last_region_number, if_pos hz]
  · rw [updateValues_total, h2, h1, delta_unset, add_zero]
  · rw [updateValues_last_minute, h3, h1, delta_unset, add_zero, ite_self]
  · rw [updateValues_last_10minute, h4, h1, delta_unset, add_zero, ite_self]
  · rw [updateValues_last_drain, h5, h1, delta_unset, add_zero, add_zero, ite_self]

/-- Witness of C5: three empty frames, the last two a minute and ten minutes later,
then zone 4. -/
theorem C5_witness :
    (4 : Int) ≠ -1 ∧
      (run (initialState 0) [(-1, 10), (-1, 70), (-1, 700), (4, 701)]).last_region_number
        = 4 ∧
      (run (initialState 0) [(-1, 10), (-1, 70), (-1, 700), (4, 701)]).total = 0 :=
  ⟨by decide,
    (C5_first_observation_adds_nothing 0 [10, 70, 700] 4 701 (by decide)).1,
    (C5_first_observation_adds_nothing 0 [10, 70, 700] 4 701 (by decide)).2.1⟩

/-- Claim C6. From any state, an observation that is none or equals
`last_region_number` leaves `last_region_number` and `total` unchanged, prints no hit
line, and adds nothing to the windows: `last_minute` changes only by the reset of a
minute flush, `last_10minute` only by the ten-minute reset, and `last_drain` only by
the reset of a minute flush that finds `last_minute` at zero. -/
theorem C6_none_or_repeat_adds_nothing (s : MeterState) (n t : Int)
    (h : n = -1 ∨ n = s.last_region_number) :
    (updateValues s n t).last_region_number = s.last_region_number ∧
      (updateValues s n t).total = s.total ∧
      (updateValues s n t).last_minute = (if minuteDue s t then 0 else s.last_minute) ∧
      (updateValues s n t).last_10minute =
        (if tenMinuteDue s t then 0 else s.last_10minute) ∧
      (updateValues s n t).last_drain =
        (if minuteDue s t ∧ s.last_minute = 0 then 0 else s.last_drain) ∧
      (emitted s (updateValues s n t)).any isHitLine = false := by
  have hd : delta n s.last_region_number = 0 := by
    rcases h with h | h
    · rw [h, delta_none]
    · rw [h, delta_same]
  have hg : regionChanged n s.last_region_number = false := by
    rcases h with h | h
    · simp [regionChanged, h]
    · simp [regionChanged, h]
  refine ⟨?_, ?_, ?_, ?_, ?_, ?_⟩
  · rw [updateValues_last_region_number]
    rcases h with h | h
    · rw [if_neg (not_not.mpr h)]
    · split_ifs
      · exact h
      · rfl
  · rw [updateValues_total, hd, add_zero]
  · rw [updateValues_last_minute, hd, add_zero]
  · rw [updateValues_last_10minute, hd, add_zero]
  · rw [updateValues_last_drain, hd, add_zero, add_zero]
  · rw [emitted, updateValues_log, List.drop_left, hg]
    simp only [Bool.false_eq_true, if_false, List.nil_append]
    split_ifs <;> simp [isHitLine]

/-- Witness of C6: a repeat of zone 2 in a call that performs the minute flush. -/
theorem C6_witness :
    (updateValues
        { last_update_time := 100, last_update_10time := 100, last_region_number := 2,
          frame_rate := 40, total := 5, last_drain := 3, last_minute := 1 / 8,
          last_10minute := 1, force_print := false, meter_start_value := 0,
          log := [] } 2 160).total = 5 ∧
      (updateValues
        { last_update_time := 100, last_update_10time := 100, last_region_number := 2,
          frame_rate := 40, total := 5, last_drain := 3, last_minute := 1 / 8,
          last_10minute := 1, force_print := false, meter_start_value := 0,
          log := [] } 2 160).last_minute = 0 := by
  have h := C6_none_or_repeat_adds_nothing
    { last_update_time := 100, last_update_10time := 100, last_region_number := 2,
      frame_rate := 40, total := 5, last_drain := 3, last_minute := 1 / 8,
      last_10minute := 1, force_print := false, meter_start_value := 0,
      log := [] } 2 160 (Or.inr rfl)
  refine ⟨h.2.1, ?_⟩
  rw [h.2.2.1]
  decide

/-- Claim C7. A pixel is dark iff at least one of its red, green, blue channels is
below 128; `regionHit` counts the dark pixels of a zone; and a zone of the table
(area 100) is a hit iff that count is strictly more than 80% of its area: exactly 80
dark pixels are not a hit, 81 or more are. -/
theorem C7_hit_threshold_is_strict (img : Image) (r : REGION) (hr : r ∈ region) :
    (∀ p : Pixel, isDark p = true ↔ (p.red < 128 ∨ p.green < 128 ∨ p.blue < 128)) ∧
      r.w * r.h = 100 ∧
      countDark img r = (darkPixels img r).card ∧
      (zoneHit img r = true ↔ 80 * (r.w * r.h) < 100 * (darkPixels img r).card) ∧
      ((darkPixels img r).card = 80 → zoneHit img r = false) ∧
      (81 ≤ (darkPixels img r).card → zoneHit img r = true) := by
  obtain ⟨hw, hh⟩ := region_size r hr
  have hhit := zoneHit_iff img r hr
  rw [countDark_eq_card] at hhit
  refine ⟨?_, ?_, countDark_eq_card img r, ?_, ?_, ?_⟩
  · intro p
    simp [isDark, or_assoc]
  · rw [hw, hh]
  · rw [hhit, hw, hh]
    omega
  · intro h80
    rw [← Bool.not_eq_true, hhit, h80]
    omega
  · intro h81
    rw [hhit]
    omega

set_option maxRecDepth 100000 in
/-- Witness of C7: in zone 0 the frame `stripeFrame false` has exactly 80 dark pixels
and is no hit; with one more dark pixel it is a hit. -/
theorem C7_witness :
    (⟨19, 107, 10, 10⟩ : REGION) ∈ region ∧
      countDark (stripeFrame false) ⟨19, 107, 10, 10⟩ = 80 ∧
      zoneHit (stripeFrame false) ⟨19, 107, 10, 10⟩ = false ∧
      countDark (stripeFrame true) ⟨19, 107, 10, 10⟩ = 81 ∧
      zoneHit (stripeFrame true) ⟨19, 107, 10, 10⟩ = true := by
  have hmem : (⟨19, 107, 10, 10⟩ : REGION) ∈ region := by decide
  have h80 : countDark (stripeFrame false) ⟨19, 107, 10, 10⟩ = 80 := by decide
  have h81 : countDark (stripeFrame true) ⟨19, 107, 10, 10⟩ = 81 := by decide
  have hf := C7_hit_threshold_is_strict (stripeFrame false) ⟨19, 107, 10, 10⟩ hmem
  have ht := C7_hit_threshold_is_strict (stripeFrame true) ⟨19, 107, 10, 10⟩ hmem
  refine ⟨hmem, h80, hf.2.2.2.2.1 ?_, h81, ht.2.2.2.2.2 ?_⟩
  · rw [← hf.2.2.1, h80]
  · rw [← ht.2.2.1, h81]

/-- Claim C8. For every frame, `regionHit` returns the smallest index in `[0, 8)` whose
zone satisfies the hit condition, and `-1` iff no zone does; its result is therefore
none or a zone index.  (The frame is an argument that is only read.) -/
theorem C8_regionHit_returns_first_hit (img : Image) :
    (∀ k : Nat, regionHit img = (k : Int) ↔
        (k < NUM_REGIONS ∧ zoneHit img (regionAt k) = true ∧
          ∀ j, j < k → zoneHit img (regionAt j) = false)) ∧
      (regionHit img = -1 ↔ ∀ j, j < NUM_REGIONS → zoneHit img (regionAt j) = false) ∧
      (regionHit img = -1 ∨ (0 ≤ regionHit img ∧ regionHit img < (NUM_REGIONS : Int))) ∧
      (∀ k : Nat, k < NUM_REGIONS → regionAt k ∈ region) := by
  obtain ⟨h1, h2⟩ := regionHitLoop_spec img NUM_REGIONS 0
  refine ⟨fun k => ?_, ?_, ?_, ?_⟩
  · unfold regionHit
    rw [h1 k]
    simp
  · unfold regionHit
    rw [h2]
    simp
  · by_cases hnone : regionHit img = -1
    · exact Or.inl hnone
    · right
      unfold regionHit at hnone ⊢
      rw [h2] at hnone
      push_neg at hnone
      obtain ⟨j, _, hj, hhit⟩ := hnone
      have hex : ∃ k, k < 0 + NUM_REGIONS ∧ zoneHit img (regionAt k) = true :=
        ⟨j, hj, by simpa using hhit⟩
      have hmin := Nat.find_spec hex
      have hlt := fun j (h : j < Nat.find hex) => Nat.find_min hex h
      have heq : regionHitLoop img NUM_REGIONS 0 = ((Nat.find hex : Nat) : Int) := by
        rw [h1]
        refine ⟨Nat.zero_le _, hmin.1, hmin.2, fun j _ hjk => ?_⟩
        have hnot := hlt j hjk
        have hj8 : j < 0 + NUM_REGIONS := lt_trans hjk hmin.1
        simp only [not_and, Bool.not_eq_true] at hnot
        exact hnot hj8
      rw [heq]
      have := hmin.1
      simp only [NUM_REGIONS] at this ⊢
      omega
  · intro k hk
    simp only [NUM_REGIONS] at hk
    interval_cases k <;> decide

/-- Claim C9. In a call that performs the minute flush, `last_drain` is reset to `0`
when `last_minute`, as it stands after the delta of this call has been added, is `0`;
when that `last_minute` is not `0`, `last_drain` keeps the value it has after the
delta. -/
theorem C9_drain_reset_iff_idle_minute (s : MeterState) (n t : Int)
    (hdue : t ≥ (initTimes s t).last_update_time + 60) :
    ((accumulate (initTimes s t) n t).last_minute = 0 →
        (updateValues s n t).last_drain = 0) ∧
      ((accumulate (initTimes s t) n t).last_minute ≠ 0 →
        (updateValues s n t).last_drain = (accumulate (initTimes s t) n t).last_drain) ∧
      (minuteFlush (accumulate (initTimes s t) n t) t).last_drain =
        (updateValues s n t).last_drain := by
  have hm : minuteDue s t := by
    simpa only [initTimes_eq, minuteDue] using hdue
  simp only [accumulate_eq, initTimes_eq, updateValues_last_drain, minuteFlush_eq]
  refine ⟨?_, ?_, ?_⟩
  · intro h0
    rw [if_pos ⟨hm, h0⟩]
  · intro h0
    rw [if_neg (fun h => h0 h.2)]
  · simp only [minuteDue]

/-- Witness of C9: an idle minute ends with `last_drain = 3`; the flush clears it. -/
theorem C9_witness :
    (updateValues
        { last_update_time := 100, last_update_10time := 100, last_region_number := 2,
          frame_rate := 40, total := 5, last_drain := 3, last_minute := 0,
          last_10minute := 1, force_print := false, meter_start_value := 0,
          log := [] } (-1) 160).last_drain = 0 :=
  (C9_drain_reset_iff_idle_minute
    { last_update_time := 100, last_update_10time := 100, last_region_number := 2,
      frame_rate := 40, total := 5, last_drain := 3, last_minute := 0,
      last_10minute := 1, force_print := false, meter_start_value := 0,
      log := [] } (-1) 160 (by decide)).1 (by decide)

/-- Claim C10. From any state whose `last_update_time` is initialised, for every
observation and every time `t`, the call performs the minute flush (prints the minute
report) iff `t ≥ last_update_time + 60`; when it does, `last_minute` is `0` and
`last_update_time` is `t` afterwards; when it does not, `last_update_time` is
unchanged and `last_minute` is its old value plus the delta of the call. -/
theorem C10_minute_flush_iff_sixty_seconds (s : MeterState) (n t : Int)
    (hinit : s.last_update_time ≠ 0) :
    ((emitted s (updateValues s n t)).any isMinuteLine = true ↔
        t ≥ s.last_update_time + 60) ∧
      (t ≥ s.last_update_time + 60 →
        (updateValues s n t).last_minute = 0 ∧
        (updateValues s n t).last_update_time = t) ∧
      (¬ t ≥ s.last_update_time + 60 →
        (updateValues s n t).last_update_time = s.last_update_time ∧
        (updateValues s n t).last_minute =
          s.last_minute + delta n s.last_region_number) := by
  have hm : minuteDue s t ↔ t ≥ s.last_update_time + 60 := by
    simp only [minuteDue, if_neg hinit]
  refine ⟨?_, ?_, ?_⟩
  · rw [← hm, emitted, updateValues_log, List.drop_left]
    by_cases hd : minuteDue s t
    · simp [hd, isMinuteLine]
    · simp only [hd, if_false, iff_false, Bool.not_eq_true]
      split_ifs <;> simp [isMinuteLine, isHitLine]
  · intro h
    have hd := hm.mpr h
    rw [updateValues_last_minute, updateValues_last_update_time, if_pos hd, if_pos hd]
    exact ⟨rfl, rfl⟩
  · intro h
    have hd : ¬ minuteDue s t := fun h1 => h (hm.mp h1)
    rw [updateValues_last_minute, updateValues_last_update_time, if_neg hd, if_neg hd,
      if_neg hinit]
    exact ⟨rfl, rfl⟩

/-- Witness of C10: sixty seconds after the last flush an empty frame triggers the
next one. -/
theorem C10_witness :
    (emitted
        { last_update_time := 100, last_update_10time := 100, last_region_number := 2,
          frame_rate := 40, total := 5, last_drain := 3, last_minute := 1 / 2,
          last_10minute := 1, force_print := false, meter_start_value := 0, log := [] }
        (updateValues
          { last_update_time := 100, last_update_10time := 100, last_region_number := 2,
            frame_rate := 40, total := 5, last_drain := 3, last_minute := 1 / 2,
            last_10minute := 1, force_print := false, meter_start_value := 0, log := [] }
          (-1) 160)).any isMinuteLine = true ∧
      (updateValues
          { last_update_time := 100, last_update_10time := 100, last_region_number := 2,
            frame_rate := 40, total := 5, last_drain := 3, last_minute := 1 / 2,
            last_10minute := 1, force_print := false, meter_start_value := 0, log := [] }
          (-1) 160).last_update_time = 160 := by
  have h := C10_minute_flush_iff_sixty_seconds
    { last_update_time := 100, last_update_10time := 100, last_region_number := 2,
      frame_rate := 40, total := 5, last_drain := 3, last_minute := 1 / 2,
      last_10minute := 1, force_print := false, meter_start_value := 0, log := [] }
    (-1) 160 (by decide)
  exact ⟨h.1.mpr (by decide), (h.2.1 (by decide)).2⟩

/-- Counterexample to C11 as stated. At the first call, made at a present-day time,
`now ≥ last_update_10time + 600` holds for the stored timestamp `0`, yet the condition
of line 193 is false; and in the state reached by the calls `(1, 0), (2, 0)`, whose
`last_update_10time` is still `0`, a call at time `1000` leaves `last_10minute` at
`1/8` instead of resetting it. -/
theorem C11_counterexample :
    ((1700000000 : Int) ≥ (initialState 0).last_update_10time + 600 ∧
        ¬ tenMinuteDue (initialState 0) 1700000000) ∧
      (run (initialState 0) [(1, 0), (2, 0)]).last_update_10time = 0 ∧
      (1000 : Int) ≥ (run (initialState 0) [(1, 0), (2, 0)]).last_update_10time + 600 ∧
      (updateValues (run (initialState 0) [(1, 0), (2, 0)]) (-1) 1000).last_10minute =
        1 / 8 := by
  have h1 : (run (initialState 0) [(1, 0), (2, 0)]).last_update_10time = 0 := by
    simp [run, updateValues_last_update_10time, tenMinuteDue, initialState]
  have h2 : (run (initialState 0) [(1, 0), (2, 0)]).last_10minute = 1 / 8 := by
    simp [run, updateValues_last_10minute, updateValues_last_update_10time,
      updateValues_last_region_number, tenMinuteDue, initialState, delta, regionChanged,
      elapsed_regions, NUM_REGIONS]
  refine ⟨⟨by decide, by decide⟩, h1, ?_, ?_⟩
  · rw [h1]; decide
  · rw [updateValues_last_10minute, h2, delta_none]
    simp [tenMinuteDue, h1]

/-- Claim C11, amended. From any state whose `last_update_10time` is initialised, a
call at time `t` resets `last_10minute` to `0` and sets `last_update_10time` to `t`
iff `t ≥ last_update_10time + 600`, and otherwise leaves the timestamp and adds only
the delta.  The outcome does not depend on the minute timestamp, the minute outcome
does not depend on the ten-minute timestamp, and neither flush block writes the
other's variables. -/
theorem C11_ten_minute_reset_independent (s : MeterState) (n t : Int)
    (hinit : s.last_update_10time ≠ 0) :
    (t ≥ s.last_update_10time + 600 →
        (updateValues s n t).last_10minute = 0 ∧
        (updateValues s n t).last_update_10time = t) ∧
      (¬ t ≥ s.last_update_10time + 600 →
        (updateValues s n t).last_10minute =
          s.last_10minute + delta n s.last_region_number ∧
        (updateValues s n t).last_update_10time = s.last_update_10time) ∧
      (∀ u : Int,
        (updateValues { s with last_update_time := u } n t).last_10minute =
          (updateValues s n t).last_10minute ∧
        (updateValues { s with last_update_time := u } n t).last_update_10time =
          (updateValues s n t).last_update_10time) ∧
      (∀ u : Int,
        (updateValues { s with last_update_10time := u } n t).last_minute =
          (updateValues s n t).last_minute ∧
        (updateValues { s with last_update_10time := u } n t).last_drain =
          (updateValues s n t).last_drain ∧
        (updateValues { s with last_update_10time := u } n t).total =
          (updateValues s n t).total ∧
        (updateValues { s with last_update_10time := u } n t).last_update_time =
          (updateValues s n t).last_update_time) ∧
      (∀ x : MeterState,
        (tenMinuteFlush x t).last_minute = x.last_minute ∧
        (tenMinuteFlush x t).last_drain = x.last_drain ∧
        (tenMinuteFlush x t).total = x.total ∧
        (tenMinuteFlush x t).last_update_time = x.last_update_time) ∧
      (∀ x : MeterState,
        (minuteFlush x t).last_10minute = x.last_10minute ∧
        (minuteFlush x t).last_update_10time = x.last_update_10time) := by
  have hd : tenMinuteDue s t ↔ t ≥ s.last_update_10time + 600 := by
    simp only [tenMinuteDue, if_neg hinit]
    norm_num
  refine ⟨?_, ?_, ?_, ?_, ?_, ?_⟩
  · intro h
    rw [updateValues_last_10minute, updateValues_last_update_10time, if_pos (hd.mpr h),
      if_pos (hd.mpr h)]
    exact ⟨rfl, rfl⟩
  · intro h
    have hnd : ¬ tenMinuteDue s t := fun h1 => h (hd.mp h1)
    rw [updateValues_last_10minute, updateValues_last_update_10time, if_neg hnd,
      if_neg hnd, if_neg hinit]
    exact ⟨rfl, rfl⟩
  · intro u
    simp only [updateValues_last_10minute, updateValues_last_update_10time, tenMinuteDue]
    exact ⟨trivial, trivial⟩
  · intro u
    simp only [updateValues_last_minute, updateValues_last_drain, updateValues_total,
      updateValues_last_update_time, minuteDue]
    exact ⟨trivial, trivial, trivial, trivial⟩
  · intro x
    simp only [tenMinuteFlush_eq]
    exact ⟨trivial, trivial, trivial, trivial⟩
  · intro x
    simp only [minuteFlush_eq]
    exact ⟨trivial, trivial⟩

/-- Witness of C11: ten minutes after the last reset, in a call that performs no
minute flush, the ten-minute window is cleared. -/
theorem C11_witness :
    (updateValues
        { last_update_time := 650, last_update_10time := 100, last_region_number := 2,
          frame_rate := 40, total := 5, last_drain := 3, last_minute := 1 / 2,
          last_10minute := 1, force_print := false, meter_start_value := 0, log := [] }
        3 700).last_10minute = 0 ∧
      (updateValues
        { last_update_time := 650, last_update_10time := 100, last_region_number := 2,
          frame_rate := 40, total := 5, last_drain := 3, last_minute := 1 / 2,
          last_10minute := 1, force_print := false, meter_start_value := 0, log := [] }
        3 700).last_update_10time = 700 :=
  (C11_ten_minute_reset_independent
    { last_update_time := 650, last_update_10time := 100, last_region_number := 2,
      frame_rate := 40, total := 5, last_drain := 3, last_minute := 1 / 2,
      last_10minute := 1, force_print := false, meter_start_value := 0, log := [] }
    3 700 (by decide)).1 (by decide)

/-- Claim C12. For every state, observation and time, the call with `force_print` set
(as `sig_handler` sets it on `SIGINT`) ends in the same state as the call with the flag
clear, except that one forced report line, printed last, is added to the output; so
`last_region_number`, the four counters, `frame_rate` and both flush timestamps
agree, and `force_print` is `false` after either call. -/
theorem C12_forced_print_keeps_state (s : MeterState) (n t : Int) :
    sig_handler s SIGINT = { s with force_print := true } ∧
      updateValues { s with force_print := true } n t =
        { updateValues { s with force_print := false } n t with
          log := (updateValues { s with force_print := false } n t).log ++
            [ Output.forcedLine t
                (updateValues { s with force_print := false } n t).last_minute
                (s.last_10minute + delta n s.last_region_number)
                (updateValues { s with force_print := false } n t).last_drain
                ((updateValues { s with force_print := false } n t).total +
                  s.meter_start_value) ] } ∧
      ((updateValues { s with force_print := true } n t).last_region_number =
          (updateValues { s with force_print := false } n t).last_region_number ∧
        (updateValues { s with force_print := true } n t).total =
          (updateValues { s with force_print := false } n t).total ∧
        (updateValues { s with force_print := true } n t).last_minute =
          (updateValues { s with force_print := false } n t).last_minute ∧
        (updateValues { s with force_print := true } n t).last_10minute =
          (updateValues { s with force_print := false } n t).last_10minute ∧
        (updateValues { s with force_print := true } n t).last_drain =
          (updateValues { s with force_print := false } n t).last_drain ∧
        (updateValues { s with force_print := true } n t).frame_rate =
          (updateValues { s with force_print := false } n t).frame_rate ∧
        (updateValues { s with force_print := true } n t).last_update_time =
          (updateValues { s with force_print := false } n t).last_update_time ∧
        (updateValues { s with force_print := true } n t).last_update_10time =
          (updateValues { s with force_print := false } n t).last_update_10time) ∧
      (updateValues { s with force_print := true } n t).force_print = false ∧
      (updateValues { s with force_print := false } n t).force_print = false := by
  refine ⟨?_, ?_, ?_, ?_, ?_⟩
  · simp [sig_handler]
  · simp only [updateValues, finish_eq, tenMinuteFlush_eq, forcedPrint_eq, minuteFlush_eq,
      accumulate_eq, initTimes_eq]
    simp
  · simp only [updateValues_last_region_number, updateValues_total,
      updateValues_last_minute, updateValues_last_10minute, updateValues_last_drain,
      updateValues_frame_rate, updateValues_last_update_time,
      updateValues_last_update_10time, minuteDue, tenMinuteDue]
    exact ⟨trivial, trivial, trivial, trivial, trivial, trivial, trivial, trivial⟩
  · rw [updateValues_force_print]
  · rw [updateValues_force_print]

/-- Claim C13 at its failing input. The command line `-start_value 0` with a
total-value file that holds `527.23`: the file is opened and the start value is
`527.23`, not the supplied `0`; with the supplied value `527234` the start value is
`527234` and the file is not opened. -/
theorem C13_zero_override_reads_file :
    startup sampleScan ["./water-meter", "-start_value", "0"] (some "527.23") =
        some ⟨false, 52723 / 100, true⟩ ∧
      startup sampleScan ["./water-meter", "-start_value", "527234"] (some "527.23") =
        some ⟨false, 527234, false⟩ := by
  have h0 := (startup_override sampleScan "./water-meter" "0" 0 (some "527.23")
    (by decide) (by decide)).2 rfl
  have h1 := (startup_override sampleScan "./water-meter" "527234" 527234
    (some "527.23") (by decide) (by decide)).1 (by norm_num)
  refine ⟨?_, ?_⟩
  · rw [h0]; simp [sampleScan]
  · rw [h1]; simp

/-- Claim C14. In every state `s` reached from the initial state by observations, the
four counters are not negative; across a further call `total` does not decrease,
`last_minute` and `last_drain` decrease only in a call that performs the minute flush
and then to exactly `0`, `last_10minute` decreases only in a call that performs the
ten-minute reset and then to exactly `0`; and across any run of calls without an
idle-minute flush `last_drain` does not decrease. -/
theorem C14_counters_nonnegative_and_monotone (meter_start_value : ℚ)
    (pre rest : List (Int × Int)) (n t : Int) (s : MeterState)
    (hpre : ∀ c ∈ pre, isObservation c.1) (hn : isObservation n)
    (hrest : ∀ c ∈ rest, isObservation c.1)
    (hs : s = run (initialState meter_start_value) pre) :
    (0 ≤ s.total ∧ 0 ≤ s.last_minute ∧ 0 ≤ s.last_10minute ∧ 0 ≤ s.last_drain) ∧
      s.total ≤ (updateValues s n t).total ∧
      ((updateValues s n t).last_minute < s.last_minute →
        minuteDue s t ∧ (updateValues s n t).last_minute = 0) ∧
      ((updateValues s n t).last_10minute < s.last_10minute →
        tenMinuteDue s t ∧ (updateValues s n t).last_10minute = 0) ∧
      ((updateValues s n t).last_drain < s.last_drain →
        minuteDue s t ∧ (updateValues s n t).last_drain = 0) ∧
      (noIdleFlush s rest → s.last_drain ≤ (run s rest).last_drain) := by
  obtain ⟨hobs, h1, h2, h3, h4, h5⟩ :=
    run_invariant pre (initialState meter_start_value) (Or.inl rfl)
      (initialState_countersOrdered meter_start_value) hpre
  rw [← hs] at hobs h1 h2 h3 h4 h5
  have hd := delta_nonneg n s.last_region_number hn hobs
  refine ⟨⟨by linarith, h1, h4, by linarith⟩, ?_, ?_, ?_, ?_, ?_⟩
  · rw [updateValues_total]
    linarith
  · rw [updateValues_last_minute]
    by_cases hm : minuteDue s t
    · intro _
      exact ⟨hm, by rw [if_pos hm]⟩
    · rw [if_neg hm]
      intro hlt
      linarith
  · rw [updateValues_last_10minute]
    by_cases hm : tenMinuteDue s t
    · intro _
      exact ⟨hm, by rw [if_pos hm]⟩
    · rw [if_neg hm]
      intro hlt
      linarith
  · rw [updateValues_last_drain]
    by_cases hm : minuteDue s t ∧ s.last_minute + delta n s.last_region_number = 0
    · intro _
      exact ⟨hm.1, by rw [if_pos hm]⟩
    · rw [if_neg hm]
      intro hlt
      linarith
  · exact run_last_drain_mono rest s hobs hrest

/-- Witness of C14: after a quarter turn an idle minute passes; the flush that ends
it clears `last_drain`, which it may because the minute flush is due, and `total`
does not decrease. -/
theorem C14_witness :
    (run (initialState 0) [(0, 1000), (2, 1001), (-1, 1060)]).last_drain = 1 / 4 ∧
      (updateValues (run (initialState 0) [(0, 1000), (2, 1001), (-1, 1060)])
        (-1) 1120).last_drain = 0 ∧
      minuteDue (run (initialState 0) [(0, 1000), (2, 1001), (-1, 1060)]) 1120 ∧
      (run (initialState 0) [(0, 1000), (2, 1001), (-1, 1060)]).total ≤
        (updateValues (run (initialState 0) [(0, 1000), (2, 1001), (-1, 1060)])
          (-1) 1120).total := by
  have h := C14_counters_nonnegative_and_monotone 0 [(0, 1000), (2, 1001), (-1, 1060)] []
    (-1) 1120 (run (initialState 0) [(0, 1000), (2, 1001), (-1, 1060)])
    (by decide) (by decide) (by simp) rfl
  have hbefore :
      (run (initialState 0) [(0, 1000), (2, 1001), (-1, 1060)]).last_drain = 1 / 4 := by
    simp [run, updateValues_last_drain, updateValues_last_minute,
      updateValues_last_update_time, updateValues_last_region_number, minuteDue,
      initialState, delta, regionChanged, elapsed_regions, NUM_REGIONS]
    norm_num
  have hafter :
      (updateValues (run (initialState 0) [(0, 1000), (2, 1001), (-1, 1060)])
        (-1) 1120).last_drain = 0 := by
    simp [run, updateValues_last_drain, updateValues_last_minute,
      updateValues_last_update_time, updateValues_last_region_number, minuteDue,
      initialState, delta, regionChanged, elapsed_regions, NUM_REGIONS]
  refine ⟨hbefore, hafter, (h.2.2.2.2.1 ?_).1, h.2.1⟩
  rw [hbefore, hafter]
  norm_num

/-- Counterexample to C15 as stated. The second of two empty frames, sixty seconds
after the first, performs the minute flush, and `frame_rate` is `1` after that call,
not `0`: line 198 counts the frame after line 179 has cleared the counter. -/
theorem C15_counterexample :
    minuteDue (run (initialState 0) [(-1, 1000)]) 1060 ∧
      (emitted (run (initialState 0) [(-1, 1000)])
        (run (initialState 0) [(-1, 1000), (-1, 1060)])).any isMinuteLine = true ∧
      (run (initialState 0) [(-1, 1000), (-1, 1060)]).frame_rate = 1 ∧
      (run (initialState 0) [(-1, 1000), (-1, 1060)]).frame_rate ≠ 0 := by
  have hlut : (run (initialState 0) [(-1, 1000)]).last_update_time = 1000 := by
    simp [run, updateValues_last_update_time, minuteDue, initialState]
  have hdue : minuteDue (run (initialState 0) [(-1, 1000)]) 1060 := by
    simp [minuteDue, hlut]
  have hrun : run (initialState 0) [(-1, 1000), (-1, 1060)] =
      updateValues (run (initialState 0) [(-1, 1000)]) (-1) 1060 := rfl
  have hrate : (run (initialState 0) [(-1, 1000), (-1, 1060)]).frame_rate = 1 := by
    rw [hrun, updateValues_frame_rate, if_pos hdue]
    rfl
  refine ⟨hdue, ?_, hrate, ?_⟩
  · rw [hrun, emitted, updateValues_log, List.drop_left, if_pos hdue]
    simp [isMinuteLine]
  · rw [hrate]
    decide

/-- Claim C15, amended. A call that performs the minute flush clears `frame_rate` and
then counts its own frame, so that `frame_rate` is `1` after that call; every other
call increases `frame_rate` by exactly `1`.  The rate in the minute report is the count
before the reset, divided by sixty. -/
theorem C15_frame_rate_counts_frames (s : MeterState) (n t : Int) :
    (updateValues s n t).frame_rate = (if minuteDue s t then 1 else s.frame_rate + 1) ∧
      (minuteFlush s t).frame_rate =
        (if t ≥ s.last_update_time + 60 then 0 else s.frame_rate) ∧
      (finish s n).frame_rate = s.frame_rate + 1 ∧
      (∀ u lm l10 d sh r,
        Output.minuteLine u lm l10 d sh r ∈ emitted s (updateValues s n t) →
          r = Int.tdiv s.frame_rate 60) := by
  refine ⟨?_, ?_, ?_, ?_⟩
  · rw [updateValues_frame_rate]
    split_ifs <;> simp
  · simp only [minuteFlush_eq]
  · simp only [finish_eq]
  · intro u lm l10 d sh r hmem
    rw [emitted, updateValues_log, List.drop_left] at hmem
    simp only [List.mem_append] at hmem
    rcases hmem with (hmem | hmem) | hmem
    · split_ifs at hmem <;> simp at hmem
    · split_ifs at hmem
      · simp at hmem
        exact hmem.2.2.2.2.2
      · simp at hmem
    · split_ifs at hmem <;> simp at hmem

/-- Claim C16. For every list of observations ingested from the initial state whose
first non-none observation is `f`, `8 * total` is a natural number `k`, and
`k ≡ last_region_number - f (mod 8)`. -/
theorem C16_total_tracks_position (meter_start_value : ℚ) (calls : List (Int × Int))
    (f : Int) (hobs : ∀ c ∈ calls, isObservation c.1)
    (hf : firstZone (calls.map Prod.fst) = some f) :
    ∃ k : Nat, 8 * (run (initialState meter_start_value) calls).total = (k : ℚ) ∧
      (k : Int) % 8 =
        ((run (initialState meter_start_value) calls).last_region_number - f) % 8 := by
  have hgen : ∀ (l : List (Int × Int)) (s : MeterState),
      s.last_region_number = -1 → s.total = 0 → (∀ c ∈ l, isObservation c.1) →
      firstZone (l.map Prod.fst) = some f →
      ∃ k : Nat, 8 * (run s l).total = (k : ℚ) ∧
        (k : Int) % 8 = ((run s l).last_region_number - f) % 8 := by
    intro l
    induction l with
    | nil =>
      intro s _ _ _ hfz
      simp [firstZone] at hfz
    | cons c rest ih =>
      intro s hlast htot hall hfz
      obtain ⟨n, t⟩ := c
      have hn : isObservation n := hall (n, t) (List.mem_cons_self _ _)
      have hrest : ∀ c ∈ rest, isObservation c.1 :=
        fun c hc => hall c (List.mem_cons_of_mem _ hc)
      have htot1 : (updateValues s n t).total = 0 := by
        rw [updateValues_total, hlast, delta_unset, htot, add_zero]
      rw [run]
      by_cases h1 : n = -1
      · have hlast1 : (updateValues s n t).last_region_number = -1 := by
          rw [updateValues_last_region_number, if_neg (not_not.mpr h1), hlast]
        have hfz1 : firstZone (rest.map Prod.fst) = some f := by
          simpa [firstZone, List.filter_cons, h1] using hfz
        exact ih _ hlast1 htot1 hrest hfz1
      · have hfn : n = f := by
          simpa [firstZone, List.filter_cons, h1] using hfz
        have hlast1 : (updateValues s n t).last_region_number = f := by
          rw [updateValues_last_region_number, if_pos h1, hfn]
        have hzf : isZone (updateValues s n t).last_region_number := by
          rw [hlast1, ← hfn]
          exact hn.resolve_left h1
        obtain ⟨_, j, hj1, hj2⟩ := run_position rest (updateValues s n t) hzf hrest
        refine ⟨j, ?_, ?_⟩
        · rw [hj1, htot1]
          ring
        · rw [hj2, hlast1]
  exact hgen calls (initialState meter_start_value) rfl rfl hobs hf

/-- Witness of C16: tracking starts at zone 6; after one full turn and three more
zones `8 * total = 11` and `11 ≡ last_region_number - 6 (mod 8)`. -/
theorem C16_witness :
    firstZone ([(-1, 5), (6, 6), (1, 7), (5, 8), (6, 9), (1, 10)].map Prod.fst) =
        some 6 ∧
      8 * (run (initialState 0) [(-1, 5), (6, 6), (1, 7), (5, 8), (6, 9), (1, 10)]).total
        = 11 ∧
      (11 : Int) % 8 =
        ((run (initialState 0)
          [(-1, 5), (6, 6), (1, 7), (5, 8), (6, 9), (1, 10)]).last_region_number - 6) % 8 := by
  have htotal :
      8 * (run (initialState 0) [(-1, 5), (6, 6), (1, 7), (5, 8), (6, 9), (1, 10)]).total
        = 11 := by
    rw [run_total _ (initialState 0) (Or.inl rfl) (by decide)]
    norm_num [specTotal, pairSum, elapsed, List.filter_cons, initialState]
  obtain ⟨k, hk1, hk2⟩ :=
    C16_total_tracks_position 0 [(-1, 5), (6, 6), (1, 7), (5, 8), (6, 9), (1, 10)] 6
      (by decide) (by decide)
  have hk : k = 11 := by
    rw [htotal] at hk1
    exact_mod_cast hk1.symm
  subst hk
  exact ⟨by decide, htotal, hk2⟩

/-- Claim C17. After every call of a run of observations from the initial state, at
any timestamps, `last_minute ≤ last_drain ≤ total` and `last_10minute ≤ total`. -/
theorem C17_counter_ordering (meter_start_value : ℚ) (calls : List (Int × Int))
    (hobs : ∀ c ∈ calls, isObservation c.1) :
    (run (initialState meter_start_value) calls).last_minute ≤
        (run (initialState meter_start_value) calls).last_drain ∧
      (run (initialState meter_start_value) calls).last_drain ≤
        (run (initialState meter_start_value) calls).total ∧
      (run (initialState meter_start_value) calls).last_10minute ≤
        (run (initialState meter_start_value) calls).total := by
  obtain ⟨_, _, h2, h3, _, h5⟩ :=
    run_invariant calls (initialState meter_start_value) (Or.inl rfl)
      (initialState_countersOrdered meter_start_value) hobs
  exact ⟨h2, h3, h5⟩

/-- Witness of C17: the counters after a flush in the middle of a turn. -/
theorem C17_witness :
    (run (initialState 0) [(0, 1000), (2, 1001), (3, 1060), (4, 1061)]).last_minute ≤
        (run (initialState 0) [(0, 1000), (2, 1001), (3, 1060), (4, 1061)]).last_drain ∧
      (run (initialState 0) [(0, 1000), (2, 1001), (3, 1060), (4, 1061)]).last_minute =
        1 / 8 ∧
      (run (initialState 0) [(0, 1000), (2, 1001), (3, 1060), (4, 1061)]).last_drain =
        1 / 2 := by
  refine ⟨(C17_counter_ordering 0 [(0, 1000), (2, 1001), (3, 1060), (4, 1061)]
    (by decide)).1, ?_, ?_⟩
  · simp [run, updateValues_last_minute, updateValues_last_update_time,
      updateValues_last_region_number, minuteDue, initialState, delta, regionChanged,
      elapsed_regions, NUM_REGIONS]
  · simp [run, updateValues_last_drain, updateValues_last_minute,
      updateValues_last_update_time, updateValues_last_region_number, minuteDue,
      initialState, delta, regionChanged, elapsed_regions, NUM_REGIONS]
    norm_num

/-- Claim C19. There is a run of zone observations with non-decreasing timestamps in
which a minute flush reports a `last_minute` strictly greater than the `last_10minute`
it reports: the first flush comes late, at 1590, the ten-minute reset at 1600 falls
between it and the next flush at 1650, which reports `1/8` for the minute and `0` for
the ten minutes. -/
theorem C19_minute_window_exceeds_ten_minute_window :
    ∃ calls : List (Int × Int),
      (∀ c ∈ calls, isZone c.1) ∧
      (calls.map Prod.snd).Pairwise (fun a c => a ≤ c) ∧
      ∃ (t : Int) (last_minute last_10minute last_drain shown : ℚ) (rate : Int),
        Output.minuteLine t last_minute last_10minute last_drain shown rate ∈
          (run (initialState 0) calls).log ∧
        last_10minute < last_minute := by
  refine ⟨[(0, 1000), (1, 1590), (2, 1600), (2, 1650)], by decide, by decide,
    1650, 1 / 8, 0, 1 / 4, 1 / 4, 0, ?_, by norm_num⟩
  simp [run, updateValues_log, updateValues_total, updateValues_last_minute,
    updateValues_last_10minute, updateValues_last_drain, updateValues_last_update_time,
    updateValues_last_update_10time, updateValues_last_region_number,
    updateValues_frame_rate, updateValues_force_print, updateValues_meter_start_value,
    minuteDue, tenMinuteDue, initialState, delta, regionChanged, elapsed_regions,
    NUM_REGIONS]
  exact ⟨by norm_num, by decide⟩

/-- Claim C20. The table has `NUM_REGIONS` entries; each has area `w * h = 100` and
lies inside the 176 by 144 frame, far edges included (`x + w < 176`, `y + h < 144`);
no two entries overlap.  Hence every coordinate `regionHit` reads and every coordinate
`drawRegion` writes is a coordinate of the frame, the result of `regionHit` depends on
the pixels of the frame only, and no pixel is read for two zones. -/
theorem C20_region_table_valid :
    region.length = NUM_REGIONS ∧
      (∀ r ∈ region,
        r.w * r.h = 100 ∧ r.x + r.w < IMAGE_WIDTH ∧ r.y + r.h < IMAGE_HEIGHT) ∧
      region.Pairwise apart ∧
      (∀ r ∈ region, ∀ p ∈ regionHitCoords r, inFrame p) ∧
      (∀ r ∈ region, ∀ p ∈ drawRegionCoords r, inFrame p) ∧
      (∀ img1 img2 : Image,
        (∀ x y, x < IMAGE_WIDTH → y < IMAGE_HEIGHT → img1 x y = img2 x y) →
          regionHit img1 = regionHit img2) ∧
      (∀ i j : Nat, i < j → j < NUM_REGIONS →
        ∀ p ∈ regionHitCoords (regionAt i), p ∉ regionHitCoords (regionAt j)) := by
  have hat : ∀ k : Nat, k < NUM_REGIONS → regionAt k ∈ region := by
    intro k hk
    simp only [NUM_REGIONS] at hk
    interval_cases k <;> decide
  refine ⟨rfl, ?_, by decide, ?_, ?_, ?_, ?_⟩
  · intro r hr
    obtain ⟨hw, hh⟩ := region_size r hr
    obtain ⟨hx, hy⟩ := region_in_frame r hr
    exact ⟨by rw [hw, hh], hx, hy⟩
  · intro r hr p hp
    obtain ⟨hx, hy⟩ := region_in_frame r hr
    rw [mem_regionHitCoords] at hp
    simp only [Finset.mem_product, Finset.mem_Ico] at hp
    unfold inFrame
    omega
  · intro r hr p hp
    obtain ⟨hx, hy⟩ := region_in_frame r hr
    have := mem_drawRegionCoords r p hp
    unfold inFrame
    omega
  · intro img1 img2 hagree
    unfold regionHit
    apply regionHitLoop_congr
    intro k _ hk
    have hmem := hat k (by omega)
    unfold zoneHit
    rw [countDark_congr img1 img2 _ hmem hagree]
  · intro i j hij hj p hp
    exact apart_regionHitCoords _ _ (regionAt_apart i j hij hj) p hp

end WaterMeter
